import Mathlib

/-!
Shallow embedding of the procedural city-growth simulator
(src/city_sim/city_sim.cpp) and proofs about the claims of its
natural-language specification.

Modelling conventions:
* Machine integers become `ℕ`/`ℤ`; the C++ `float` car coordinates become `ℚ`
  (the control logic only depends on arithmetic and truncation-to-int, both of
  which `ℚ` models exactly); `static_cast<int>` on a float truncates toward
  zero, modelled by `truncQ`.
* The pseudo-random source (`std::mt19937 gen`) is modelled by an explicit
  oracle structure `Rng`: every call site of a distribution becomes an oracle
  field, normalised into the distribution's range with `%` (so every value the
  C++ distribution can produce is realisable by some oracle, and theorems
  quantified over all oracles cover every real execution).  `std::shuffle`
  becomes an oracle function on lists; `Rng.Valid` records the guarantees the
  C++ library provides (shuffles are permutations, `uniform_real_distribution`
  stays in its range).
* The global mutable state (grid, buildings, cars, roads, waterCells,
  currentStep) becomes the record `SimState`, threaded explicitly.
* Grid dimensions are fields of the state; the source fixes
  `GRID_WIDTH = 80`, `GRID_HEIGHT = 45`, but all code depends on them only
  through `isValidCell` and loop bounds, so they are kept as parameters
  (the spec's `initialize(width, height, seed?)` interface).
* Rendering (`draw*`), SDL plumbing and the wall-clock water animation are
  outside the model.
-/

/-- Cell types, from `enum CellType`. -/
inductive CellType where
  | EMPTY
  | ROAD
  | RESIDENTIAL
  | COMMERCIAL
  | INDUSTRIAL
  | WATER
  | PARK
  | POWER_PLANT
  | GOVERNMENT
  | FOREST
  | FARM
deriving DecidableEq, Repr

export CellType (EMPTY ROAD RESIDENTIAL COMMERCIAL INDUSTRIAL WATER PARK POWER_PLANT GOVERNMENT FOREST FARM)

/-- Building styles, from `enum BuildingStyle`. -/
inductive BuildingStyle where
  | BASIC
  | MODERN
  | HISTORIC
  | FANCY
deriving DecidableEq, Repr

/-- `static_cast<BuildingStyle>` of a value drawn from `[0,3]`. -/
def BuildingStyle.fromNat : ℕ → BuildingStyle
  | 0 => .BASIC
  | 1 => .MODERN
  | 2 => .HISTORIC
  | 3 => .FANCY
  | _ => .BASIC

/-- Per-cell building metadata, from `struct Building`. -/
structure Building where
  type : CellType
  density : ℕ
  age : ℕ
  style : BuildingStyle
  variant : ℕ
  hasTree : Bool
  hasCar : Bool
deriving DecidableEq, Repr

/-- A traffic agent, from `struct Car`.  Positions and speed are fractional. -/
structure Car where
  x : ℚ
  y : ℚ
  speed : ℚ
  direction : ℕ
  roadIndex : ℕ
  color : ℕ × ℕ × ℕ
deriving DecidableEq, Repr

/-- Direction offset table `dx` (indices 0-7: 4 cardinal then 4 diagonal). -/
def dx : ℕ → ℤ
  | 0 => -1
  | 1 => 0
  | 2 => 1
  | 3 => 0
  | 4 => -1
  | 5 => -1
  | 6 => 1
  | 7 => 1
  | _ => 0

/-- Direction offset table `dy`. -/
def dy : ℕ → ℤ
  | 0 => 0
  | 1 => 1
  | 2 => 0
  | 3 => -1
  | 4 => -1
  | 5 => 1
  | 6 => 1
  | 7 => -1
  | _ => 0

/-- The whole simulation state: the global containers of the source plus the
grid dimensions and the step counter. -/
structure SimState where
  W : ℕ
  H : ℕ
  grid : ℤ → ℤ → CellType
  buildings : ℤ → ℤ → Building
  cars : List Car
  roads : List (ℤ × ℤ)
  waterCells : List (ℤ × ℤ)
  currentStep : ℕ

/-- `bool isValidCell(int x, int y)`. -/
def isValidCell (W H : ℕ) (x y : ℤ) : Prop :=
  0 ≤ x ∧ x < (W : ℤ) ∧ 0 ≤ y ∧ y < (H : ℤ)

instance (W H : ℕ) (x y : ℤ) : Decidable (isValidCell W H x y) := by
  unfold isValidCell
  infer_instance

/-- Point update of the grid function (assignment `grid[x][y] = c`). -/
def updG (g : ℤ → ℤ → CellType) (x y : ℤ) (c : CellType) : ℤ → ℤ → CellType :=
  fun a b => if a = x ∧ b = y then c else g a b

/-- Point update of the buildings function. -/
def updB (g : ℤ → ℤ → Building) (x y : ℤ) (c : Building) : ℤ → ℤ → Building :=
  fun a b => if a = x ∧ b = y then c else g a b

/-- `int countNeighborsOfTypeInRadius(int x, int y, CellType type, int radius)`:
scans the square of side `2*radius+1` centred on `(x,y)`, excluding the
centre, counting in-bounds exact-type matches. -/
def countNeighborsOfTypeInRadius (W H : ℕ) (g : ℤ → ℤ → CellType)
    (x y : ℤ) (t : CellType) (radius : ℕ) : ℕ :=
  ((List.range (2 * radius + 1)).flatMap fun (i : ℕ) =>
    (List.range (2 * radius + 1)).map fun (j : ℕ) =>
      ((i : ℤ) - radius, (j : ℤ) - radius)).countP fun p =>
    decide (¬(p.1 = 0 ∧ p.2 = 0) ∧ isValidCell W H (x + p.1) (y + p.2) ∧
      g (x + p.1) (y + p.2) = t)

/-- `static_cast<int>` of a float: truncation toward zero, on `ℚ`. -/
def truncQ (q : ℚ) : ℤ := q.num.tdiv q.den

/-- Primitive: claim a cell as water (`grid[nx][ny] = WATER` followed by
`waterCells.push_back`). -/
def setWater (st : SimState) (x y : ℤ) : SimState :=
  { st with grid := updG st.grid x y WATER, waterCells := st.waterCells ++ [(x, y)] }

/-- Primitive: claim a cell as road (`grid[x][y] = ROAD` followed by
`roads.push_back`). -/
def setRoad (st : SimState) (x y : ℤ) : SimState :=
  { st with grid := updG st.grid x y ROAD, roads := st.roads ++ [(x, y)] }

/-- Primitive: claim a cell as forest, with the building record updates of the
forest generator. -/
def setForestCell (st : SimState) (x y : ℤ) (variant : ℕ) : SimState :=
  { st with grid := updG st.grid x y FOREST,
            buildings := updB st.buildings x y
              { st.buildings x y with type := FOREST, variant := variant } }

/-- Primitive: claim a cell as farm, with the building record updates of the
farm generator. -/
def setFarmCell (st : SimState) (x y : ℤ) (variant : ℕ) : SimState :=
  { st with grid := updG st.grid x y FARM,
            buildings := updB st.buildings x y
              { st.buildings x y with type := FARM, variant := variant } }

/-- The random draws consumed by one `addRandomCar()` call. -/
structure CarDraw where
  roadR : ℕ
  speed : ℚ
  dirR : ℕ
  rR : ℕ
  gR : ℕ
  bR : ℕ

/-- The random draws consumed for one car inside `updateCars()`. -/
structure CarChoice where
  dirPick : ℕ
  teleRoad : ℕ
  teleDir : ℕ

/-- Oracle for the pseudo-random source: one field per draw site, indexed so
that every draw of one invocation has its own slot. -/
structure Rng where
  waterCountR : ℕ
  wStartXR : ℕ → ℕ
  wStartYR : ℕ → ℕ
  wTypeR : ℕ → ℕ
  riverLenR : ℕ → ℕ
  riverDirR : ℕ → ℕ
  riverTurnR : ℕ → ℕ → ℕ
  riverDeltaR : ℕ → ℕ → ℕ
  lakeSizeR : ℕ → ℕ
  lakeExpandR : ℕ → ℕ → ℕ → ℕ
  forestCountR : ℕ
  fStartXR : ℕ → ℕ
  fStartYR : ℕ → ℕ
  forestSizeR : ℕ → ℕ
  forestVariantR : ℕ → ℕ → ℕ
  forestExpandR : ℕ → ℕ → ℕ → ℕ
  farmCountR : ℕ
  farmStartXR : ℕ → ℕ
  farmStartYR : ℕ → ℕ
  farmWR : ℕ → ℕ
  farmHR : ℕ → ℕ
  farmVariantR : ℕ → ℤ → ℤ → ℕ
  branchXR : ℕ → ℕ
  branchYR : ℕ → ℕ
  branchDirR : ℕ → ℕ
  branchLenR : ℕ → ℕ
  carInit : ℕ → CarDraw
  carMove : ℕ → CarChoice
  spawnRoll : ℕ
  spawnDraw : CarDraw
  shuffleSpots : List (ℤ × ℤ) → List (ℤ × ℤ)
  typeR : ℕ → ℕ
  styleR : ℕ → ℕ
  variantR : ℕ → ℕ
  treeR : ℕ → ℕ
  densR : ℤ → ℤ → ℕ
  treeAgeR : ℤ → ℤ → ℕ
  shuffleRoads : List (ℤ × ℤ) → List (ℤ × ℤ)

/-- The guarantees the C++ standard library provides about the randomness the
oracle models: `std::shuffle` permutes its input, and
`uniform_real_distribution(0.05, 0.2)` stays inside its range. -/
def Rng.Valid (rng : Rng) : Prop :=
  (∀ l, (rng.shuffleSpots l).Perm l) ∧
  (∀ l, (rng.shuffleRoads l).Perm l) ∧
  (∀ i, Rat.divInt 1 20 ≤ (rng.carInit i).speed ∧ (rng.carInit i).speed ≤ Rat.divInt 1 5) ∧
  (Rat.divInt 1 20 ≤ rng.spawnDraw.speed ∧ rng.spawnDraw.speed ≤ Rat.divInt 1 5)

/-! ## Terrain generation (`generateTerrain`) -/

/-- One 3×3 water stamp of the river walk, centred on `(cx, cy)` (loop
`ox, oy ∈ [-1,1]`, claiming in-bounds `EMPTY` cells). -/
def riverStamp (st : SimState) (cx cy : ℤ) : SimState :=
  (((List.range 3).flatMap fun (ox : ℕ) => (List.range 3).map fun (oy : ℕ) =>
      ((ox : ℤ) - 1, (oy : ℤ) - 1))).foldl
    (fun s o =>
      if isValidCell s.W s.H (cx + o.1) (cy + o.2) ∧ s.grid (cx + o.1) (cy + o.2) = EMPTY
      then setWater s (cx + o.1) (cy + o.2) else s) st

/-- The river walk: at each of the remaining steps, possibly bend the
direction (the C++ `dir = (dir + (gen()%3 - 1)) % 4` with negative fixup is
mathematically `(dir + roll%3 + 3) % 4`), stamp 3×3 water, move, and stop
early when the walk exits the grid. -/
def riverWalk (rng : Rng) (i : ℕ) : ℕ → ℕ → ℕ → ℤ → ℤ → SimState → SimState
  | 0, _, _, _, _, st => st
  | len + 1, j, dir, x, y, st =>
    let dir' := if rng.riverTurnR i j % 5 = 0 then (dir + rng.riverDeltaR i j % 3 + 3) % 4 else dir
    let st' := riverStamp st x y
    let x' := x + dx dir'
    let y' := y + dy dir'
    if isValidCell st'.W st'.H x' y' then riverWalk rng i len (j + 1) dir' x' y' st' else st'

/-- The lake flood fill: pop a cell, claim it as water if in-bounds and still
`EMPTY` (decrementing the size budget and enqueueing each neighbour with 70%
probability), and loop until the queue empties or the budget reaches 0.
`fuel` makes the recursion structural; the measure `5*size + queue.length`
strictly decreases each iteration, so fuel `5*(size+1)` is never exhausted on
the calls the generator makes. -/
def lakeFill (rng : Rng) (i : ℕ) : ℕ → List (ℤ × ℤ) → ℕ → ℕ → SimState → SimState
  | 0, _, _, _, st => st
  | _ + 1, [], _, _, st => st
  | _ + 1, _ :: _, 0, _, st => st
  | fuel + 1, (x, y) :: q, size + 1, k, st =>
    if isValidCell st.W st.H x y ∧ st.grid x y = EMPTY then
      let st' := setWater st x y
      let q' := q ++ (List.range 4).filterMap fun d =>
        if rng.lakeExpandR i k d % 101 < 70 then some (x + dx d, y + dy d) else none
      lakeFill rng i fuel q' size (k + 1) st'
    else
      lakeFill rng i fuel q (size + 1) (k + 1) st

/-- The forest flood fill: same algorithm as the lake with a 60% expansion
probability, claiming `FOREST` and a random variant. -/
def forestFill (rng : Rng) (i : ℕ) : ℕ → List (ℤ × ℤ) → ℕ → ℕ → SimState → SimState
  | 0, _, _, _, st => st
  | _ + 1, [], _, _, st => st
  | _ + 1, _ :: _, 0, _, st => st
  | fuel + 1, (x, y) :: q, size + 1, k, st =>
    if isValidCell st.W st.H x y ∧ st.grid x y = EMPTY then
      let st' := setForestCell st x y (rng.forestVariantR i k % 3)
      let q' := q ++ (List.range 4).filterMap fun d =>
        if rng.forestExpandR i k d % 101 < 60 then some (x + dx d, y + dy d) else none
      forestFill rng i fuel q' size (k + 1) st'
    else
      forestFill rng i fuel q (size + 1) (k + 1) st

/-- One water body: a random start in `[5, W-5] × [5, H-5]`, then a river
(probability 1/2) or a lake of budget drawn from `[20, 40]`. -/
def genWaterBody (rng : Rng) (st : SimState) (i : ℕ) : SimState :=
  let sx : ℤ := (5 + rng.wStartXR i % (st.W - 9) : ℕ)
  let sy : ℤ := (5 + rng.wStartYR i % (st.H - 9) : ℕ)
  if rng.wTypeR i % 2 = 0 then
    riverWalk rng i (15 + rng.riverLenR i % 20) 0 (rng.riverDirR i % 4) sx sy st
  else
    let size := 20 + rng.lakeSizeR i % 21
    lakeFill rng i (5 * (size + 1)) [(sx, sy)] size 0 st

/-- One forest patch: budget drawn from `[10, 30]`. -/
def genForest (rng : Rng) (st : SimState) (i : ℕ) : SimState :=
  let sx : ℤ := (5 + rng.fStartXR i % (st.W - 9) : ℕ)
  let sy : ℤ := (5 + rng.fStartYR i % (st.H - 9) : ℕ)
  let size := 10 + rng.forestSizeR i % 21
  forestFill rng i (5 * (size + 1)) [(sx, sy)] size 0 st

/-- One rectangular farm patch (width and height from `[5, 10]`), stamped
onto still-`EMPTY` in-bounds cells. -/
def genFarm (rng : Rng) (st : SimState) (i : ℕ) : SimState :=
  let sx : ℤ := (5 + rng.farmStartXR i % (st.W - 9) : ℕ)
  let sy : ℤ := (5 + rng.farmStartYR i % (st.H - 9) : ℕ)
  let w := 5 + rng.farmWR i % 6
  let h := 5 + rng.farmHR i % 6
  ((List.range w).flatMap fun (a : ℕ) => (List.range h).map fun (b : ℕ) => ((a : ℤ), (b : ℤ))).foldl
    (fun s o =>
      if isValidCell s.W s.H (sx + o.1) (sy + o.2) ∧ s.grid (sx + o.1) (sy + o.2) = EMPTY
      then setFarmCell s (sx + o.1) (sy + o.2) (rng.farmVariantR i (sx + o.1) (sy + o.2) % 3)
      else s) st

/-- `void generateTerrain()`: 1-3 water bodies, then 2-5 forests, then 1-3
farms. -/
def generateTerrain (rng : Rng) (st : SimState) : SimState :=
  let st1 := (List.range (1 + rng.waterCountR % 3)).foldl (genWaterBody rng) st
  let st2 := (List.range (2 + rng.forestCountR % 4)).foldl (genForest rng) st1
  (List.range (1 + rng.farmCountR % 3)).foldl (genFarm rng) st2

/-! ## Road network and cars -/

/-- `void addRandomCar()`: no-op on an empty road list, otherwise a car at a
uniformly random road coordinate with random speed, direction and pastel
color. -/
def addRandomCar (d : CarDraw) (st : SimState) : SimState :=
  if st.roads = [] then st
  else
    let ri := d.roadR % st.roads.length
    let p := st.roads.getD ri (0, 0)
    { st with cars := st.cars ++ [{
        x := (p.1 : ℚ), y := (p.2 : ℚ), speed := d.speed,
        direction := d.dirR % 4, roadIndex := ri,
        color := (150 + d.rR % 101, 150 + d.gR % 101, 150 + d.bR % 101) }] }

/-- The walk of one branch road: move one cell in the branch direction;
claim the cell if in-bounds and `EMPTY`, otherwise stop. -/
def branchWalk (d : ℕ) : ℕ → ℤ → ℤ → SimState → SimState
  | 0, _, _, st => st
  | len + 1, x, y, st =>
    let x' := x + dx d
    let y' := y + dy d
    if isValidCell st.W st.H x' y' ∧ st.grid x' y' = EMPTY then
      branchWalk d len x' y' (setRoad st x' y')
    else st

/-- One branch road: starts on the horizontal arterial for even `i` and on
the vertical one for odd `i`, with random direction and length from `[5,15]`. -/
def genBranch (rng : Rng) (st : SimState) (i : ℕ) : SimState :=
  let bx : ℤ := if i % 2 = 0 then (rng.branchXR i % st.W : ℕ) else (st.W / 2 : ℕ)
  let by' : ℤ := if i % 2 = 0 then (st.H / 2 : ℕ) else (rng.branchYR i % st.H : ℕ)
  branchWalk (rng.branchDirR i % 4) (5 + rng.branchLenR i % 11) bx by' st

/-- `void generateInitialRoads()`: the full-width horizontal arterial at
`H/2`, the full-height vertical arterial at `W/2` (claiming only `EMPTY`
cells), `INITIAL_ROADS = 30` branch roads, then 15 initial cars. -/
def generateInitialRoads (rng : Rng) (st : SimState) : SimState :=
  let st1 := (List.range st.W).foldl
    (fun s (x : ℕ) => if s.grid (x : ℤ) ((s.H / 2 : ℕ) : ℤ) = EMPTY
      then setRoad s (x : ℤ) ((s.H / 2 : ℕ) : ℤ) else s) st
  let st2 := (List.range st.H).foldl
    (fun s (y : ℕ) => if s.grid ((s.W / 2 : ℕ) : ℤ) (y : ℤ) = EMPTY
      then setRoad s ((s.W / 2 : ℕ) : ℤ) (y : ℤ) else s) st1
  let st3 := (List.range 30).foldl (genBranch rng) st2
  (List.range 15).foldl (fun s i => addRandomCar (rng.carInit i) s) st3

/-- The candidate directions at a blocked move: the 3 directions other than
the reverse of the current one whose target integer cell (taken from the
car's pre-move position) is an in-bounds road cell. -/
def possibleDirs (W H : ℕ) (g : ℤ → ℤ → CellType) (c : Car) : List ℕ :=
  (List.range 4).filter fun d =>
    decide (¬ d = (c.direction + 2) % 4 ∧
      isValidCell W H (truncQ c.x + dx d) (truncQ c.y + dy d) ∧
      g (truncQ c.x + dx d) (truncQ c.y + dy d) = ROAD)

/-- The per-car body of `updateCars()`: commit the straight fractional move
when its target integer cell is an in-bounds road; otherwise redirect to a
random candidate direction (recomputing the move from the pre-move position),
or, with no candidate, teleport to a random road entry, skipping the move. -/
def moveCar (W H : ℕ) (g : ℤ → ℤ → CellType) (roads : List (ℤ × ℤ))
    (ch : CarChoice) (c : Car) : Car :=
  let nx := c.x + (dx c.direction : ℚ) * c.speed
  let ny := c.y + (dy c.direction : ℚ) * c.speed
  if isValidCell W H (truncQ nx) (truncQ ny) ∧ g (truncQ nx) (truncQ ny) = ROAD then
    { c with x := nx, y := ny }
  else
    let pd := possibleDirs W H g c
    if pd = [] then
      let ri := ch.teleRoad % roads.length
      let p := roads.getD ri (0, 0)
      { c with roadIndex := ri, x := (p.1 : ℚ), y := (p.2 : ℚ), direction := ch.teleDir % 4 }
    else
      let d := pd.getD (ch.dirPick % pd.length) 0
      { c with direction := d,
               x := c.x + (dx d : ℚ) * c.speed,
               y := c.y + (dy d : ℚ) * c.speed }

/-- `void updateCars()`: no-op on an empty road list; otherwise move every
car, then with probability 5% (capped at `roads.size()/5` cars) spawn one
more car. -/
def updateCars (rng : Rng) (st : SimState) : SimState :=
  if st.roads = [] then st
  else
    let cars' := st.cars.enum.map fun ic =>
      moveCar st.W st.H st.grid st.roads (rng.carMove ic.1) ic.2
    let st' := { st with cars := cars' }
    if rng.spawnRoll % 100 < 5 ∧ cars'.length < st.roads.length / 5 then
      addRandomCar rng.spawnDraw st'
    else st'

/-! ## Growth engine (`growCity`) -/

/-- The building-candidate collection: for every road coordinate in order,
its 4-neighbours that are in-bounds and `EMPTY` (duplicates are kept, exactly
as the C++ vector keeps them). -/
def buildingSpotsOf (st : SimState) : List (ℤ × ℤ) :=
  st.roads.flatMap fun r =>
    (List.range 4).filterMap fun d =>
      if isValidCell st.W st.H (r.1 + dx d) (r.2 + dy d) ∧
          st.grid (r.1 + dx d) (r.2 + dy d) = EMPTY
      then some (r.1 + dx d, r.2 + dy d) else none

/-- The building-type decision for one admitted candidate: base type from the
percentile roll, then the water / park-forest / late-park override rules, in
source order. -/
def decideType (W H : ℕ) (g : ℤ → ℤ → CellType) (x y : ℤ) (step r : ℕ) : CellType :=
  let base := if r < 60 then RESIDENTIAL else if r < 85 then COMMERCIAL else INDUSTRIAL
  let t1 := if 0 < countNeighborsOfTypeInRadius W H g x y WATER 3 ∧ r < 80
            then RESIDENTIAL else base
  let t2 := if (0 < countNeighborsOfTypeInRadius W H g x y PARK 3 ∨
                0 < countNeighborsOfTypeInRadius W H g x y FOREST 3) ∧ r < 75
            then RESIDENTIAL else t1
  if 95 < r ∧ 50 < step then PARK else t2

/-- Place one admitted building candidate: decide the type from the *current*
grid, write the grid and the building record (density 1, age 0, random style
and variant, 40% tree chance for residential/commercial). -/
def placeOne (rng : Rng) (i : ℕ) (st : SimState) (p : ℤ × ℤ) : SimState :=
  let r := rng.typeR i % 101
  let t := decideType st.W st.H st.grid p.1 p.2 st.currentStep r
  let b0 := st.buildings p.1 p.2
  { st with
    grid := updG st.grid p.1 p.2 t,
    buildings := updB st.buildings p.1 p.2
      { type := t, density := 1, age := 0,
        style := BuildingStyle.fromNat (rng.styleR i % 4),
        variant := rng.variantR i % 5,
        hasTree := if (t = RESIDENTIAL ∨ t = COMMERCIAL) ∧ rng.treeR i % 101 < 40
                  then true else b0.hasTree,
        hasCar := b0.hasCar } }

/-- The admission loop over the shuffled candidate list. -/
def placeBuildings (rng : Rng) : ℕ → SimState → List (ℤ × ℤ) → SimState
  | _, st, [] => st
  | i, st, p :: rest => placeBuildings rng (i + 1) (placeOne rng i st p) rest

/-- The maturation of one building cell (already known to be a non-empty,
non-road, non-water cell): increment age; every 20 ticks of age promote
density (cap 3, 60% chance, residential/commercial/industrial only); every 30
ticks of age add a tree to a treeless residential building (40% chance). -/
def matureOne (c : CellType) (b : Building) (dR tR : ℕ) : Building :=
  let b1 := { b with age := b.age + 1 }
  let b2 := if b1.age % 20 = 0 ∧ b1.density < 3 ∧
               (c = RESIDENTIAL ∨ c = COMMERCIAL ∨ c = INDUSTRIAL) ∧ dR % 5 < 3
            then { b1 with density := b1.density + 1 } else b1
  if ¬b2.hasTree = true ∧ c = RESIDENTIAL ∧ b2.age % 30 = 0 ∧ tR % 10 < 4
  then { b2 with hasTree := true } else b2

/-- The maturation pass: the source loops over all in-bounds cells, touching
exactly the cells whose tag is not `EMPTY`, `ROAD` or `WATER`; each iteration
reads and writes only its own cell, so the loop is the pointwise map below. -/
def matureAll (rng : Rng) (st : SimState) : SimState :=
  { st with buildings := fun x y =>
      if isValidCell st.W st.H x y ∧ st.grid x y ≠ EMPTY ∧ st.grid x y ≠ ROAD ∧
          st.grid x y ≠ WATER
      then matureOne (st.grid x y) (st.buildings x y) (rng.densR x y) (rng.treeAgeR x y)
      else st.buildings x y }

/-- The road-candidate collection of the incremental road extension: scan the
grid in loop order for building cells, collecting their in-bounds `EMPTY`
4-neighbours that also have a road 4-neighbour. -/
def roadSpotsOf (st : SimState) : List (ℤ × ℤ) :=
  (List.range st.W).flatMap fun (x : ℕ) =>
    (List.range st.H).flatMap fun (y : ℕ) =>
      if st.grid (x : ℤ) (y : ℤ) ≠ EMPTY ∧ st.grid (x : ℤ) (y : ℤ) ≠ ROAD ∧
          st.grid (x : ℤ) (y : ℤ) ≠ WATER then
        (List.range 4).filterMap fun d =>
          let nx := (x : ℤ) + dx d
          let ny := (y : ℤ) + dy d
          if isValidCell st.W st.H nx ny ∧ st.grid nx ny = EMPTY ∧
              (∃ d2 < 4, isValidCell st.W st.H (nx + dx d2) (ny + dy d2) ∧
                st.grid (nx + dx d2) (ny + dy d2) = ROAD)
          then some (nx, ny) else none
      else []

/-- The claim loop of the road extension (no re-check before claiming,
exactly as in the source). -/
def addRoadCells : SimState → List (ℤ × ℤ) → SimState
  | st, [] => st
  | st, p :: rest => addRoadCells (setRoad st p.1 p.2) rest

/-- The incremental road extension: shuffle the candidates and claim up to
`1 + step/100` of them. -/
def extendRoads (rng : Rng) (st : SimState) : SimState :=
  let spots := roadSpotsOf st
  let newRoads := min (1 + st.currentStep / 100) spots.length
  addRoadCells st ((rng.shuffleRoads spots).take newRoads)

/-- `void growCity()`: collect and shuffle building candidates, admit up to
`1 + step/50` of them, run the maturation pass, and, every 10th step, the
road extension. -/
def growCity (rng : Rng) (st : SimState) : SimState :=
  let spots := buildingSpotsOf st
  let newB := min (1 + st.currentStep / 50) spots.length
  let st1 := placeBuildings rng 0 st ((rng.shuffleSpots spots).take newB)
  let st2 := matureAll rng st1
  if st.currentStep % 10 = 0 then extendRoads rng st2 else st2

/-- `void simulationStep()`: always update cars, run the growth engine every
3rd step, and increment the step counter.  (The water-animation phase is
advanced on a wall-clock timer and is not part of the grid model.) -/
def simulationStep (rng : Rng) (st : SimState) : SimState :=
  let st1 := updateCars rng st
  let st2 := if st1.currentStep % 3 = 0 then growCity rng st1 else st1
  { st2 with currentStep := st2.currentStep + 1 }

/-- The default-constructed building record. -/
def initialBuilding : Building :=
  { type := EMPTY, density := 0, age := 0, style := .BASIC, variant := 0,
    hasTree := false, hasCar := false }

/-- `void initializeGrid()`: the all-empty grid with default building
records, then terrain, then initial roads (including the 15 initial cars). -/
def initializeGrid (W H : ℕ) (rng : Rng) : SimState :=
  let st0 : SimState :=
    { W := W, H := H, grid := fun _ _ => EMPTY, buildings := fun _ _ => initialBuilding,
      cars := [], roads := [], waterCells := [], currentStep := 0 }
  generateInitialRoads rng (generateTerrain rng st0)

/-- The reachable simulation states: an initialised state (the source fixes
80×45; any dimensions ≥ 10 keep the terrain generator's `uniform_int`
ranges well-formed) followed by any number of simulation steps, each with a
fresh, well-formed randomness oracle. -/
inductive Reachable : SimState → Prop where
  | init (W H : ℕ) (rng : Rng) (hW : 10 ≤ W) (hH : 10 ≤ H) (hrng : rng.Valid) :
      Reachable (initializeGrid W H rng)
  | step (rng : Rng) (st : SimState) (hrng : rng.Valid) (h : Reachable st) :
      Reachable (simulationStep rng st)

/-- `growCity` without the road extension: candidate placement followed by
the maturation pass (used to state when the road extension runs). -/
def growthCore (rng : Rng) (st : SimState) : SimState :=
  matureAll rng (placeBuildings rng 0 st
    ((rng.shuffleSpots (buildingSpotsOf st)).take
      (min (1 + st.currentStep / 50) (buildingSpotsOf st).length)))

/-- All in-bounds coordinates, in the source's scan order. -/
def allCells (W H : ℕ) : List (ℤ × ℤ) :=
  (List.range W).flatMap fun (x : ℕ) => (List.range H).map fun (y : ℕ) => ((x : ℤ), (y : ℤ))

/-- The number of cells that were `EMPTY` in `a` and hold a building type
(`RESIDENTIAL`/`COMMERCIAL`/`INDUSTRIAL`/`PARK`) in `b`: the newly placed
buildings between the two states. -/
def newBuildingCount (a b : SimState) : ℕ :=
  (allCells a.W a.H).countP fun p =>
    decide (a.grid p.1 p.2 = EMPTY ∧
      (b.grid p.1 p.2 = RESIDENTIAL ∨ b.grid p.1 p.2 = COMMERCIAL ∨
       b.grid p.1 p.2 = INDUSTRIAL ∨ b.grid p.1 p.2 = PARK))

/-- The building-type rule exactly as the specification words it (C4): one
percentile roll `r`; base type `r<60` residential, `r<85` commercial, else
industrial; overridden in order by the water rule, the park/forest rule, and
the late-park rule (which overrides all prior). -/
def specBuildingType (W H : ℕ) (g : ℤ → ℤ → CellType) (x y : ℤ) (step r : ℕ) : CellType :=
  if 95 < r ∧ 50 < step then PARK
  else if (0 < countNeighborsOfTypeInRadius W H g x y PARK 3 ∨
           0 < countNeighborsOfTypeInRadius W H g x y FOREST 3) ∧ r < 75 then RESIDENTIAL
  else if 0 < countNeighborsOfTypeInRadius W H g x y WATER 3 ∧ r < 80 then RESIDENTIAL
  else if r < 60 then RESIDENTIAL
  else if r < 85 then COMMERCIAL
  else INDUSTRIAL

/-! ## Invariants -/

/-- Road-list invariant: every listed coordinate is an in-bounds road cell,
and every in-bounds road cell is listed. -/
def RoadsInv (st : SimState) : Prop :=
  (∀ p ∈ st.roads, isValidCell st.W st.H p.1 p.2 ∧ st.grid p.1 p.2 = ROAD) ∧
  (∀ x y : ℤ, isValidCell st.W st.H x y → st.grid x y = ROAD → (x, y) ∈ st.roads)

/-- Water-list invariant: every listed coordinate is an in-bounds water cell. -/
def WaterInv (st : SimState) : Prop :=
  ∀ p ∈ st.waterCells, isValidCell st.W st.H p.1 p.2 ∧ st.grid p.1 p.2 = WATER

/-- Car invariant: every car's truncated integer position is an in-bounds
road cell, and its speed lies in `(0, 1)`. -/
def CarsInv (st : SimState) : Prop :=
  ∀ c ∈ st.cars, isValidCell st.W st.H (truncQ c.x) (truncQ c.y) ∧
    st.grid (truncQ c.x) (truncQ c.y) = ROAD ∧ 0 < c.speed ∧ c.speed < 1

/-- Density bound: no building record ever exceeds density 3. -/
def DensInv (st : SimState) : Prop :=
  ∀ x y : ℤ, (st.buildings x y).density ≤ 3

/-- The master invariant of reachable states. -/
def SimInv (st : SimState) : Prop :=
  RoadsInv st ∧ WaterInv st ∧ CarsInv st ∧ DensInv st

/-! ## Concrete oracles and states for witnesses and counterexamples -/

/-- A concrete well-formed oracle.  On a 10×10 grid all terrain seeds land on
(5,5) (the `uniform_int_distribution(5, W-5)` range collapses): the single
water body is a one-cell lake, both forest seeds find it occupied, one 5×5
farm covers `[5,10)×[5,10)` minus the lake cell; every branch road walks out
of bounds immediately, so the roads are the two arterial fragments; the 15
initial cars all sit at road index 0. -/
def rngW : Rng where
  waterCountR := 0
  wStartXR := fun _ => 0
  wStartYR := fun _ => 0
  wTypeR := fun _ => 1
  riverLenR := fun _ => 0
  riverDirR := fun _ => 0
  riverTurnR := fun _ _ => 1
  riverDeltaR := fun _ _ => 0
  lakeSizeR := fun _ => 0
  lakeExpandR := fun _ _ _ => 100
  forestCountR := 0
  fStartXR := fun _ => 0
  fStartYR := fun _ => 0
  forestSizeR := fun _ => 0
  forestVariantR := fun _ _ => 0
  forestExpandR := fun _ _ _ => 100
  farmCountR := 0
  farmStartXR := fun _ => 0
  farmStartYR := fun _ => 0
  farmWR := fun _ => 0
  farmHR := fun _ => 0
  farmVariantR := fun _ _ _ => 0
  branchXR := fun _ => 0
  branchYR := fun _ => 0
  branchDirR := fun i => if i % 2 = 0 then 0 else 3
  branchLenR := fun _ => 0
  carInit := fun _ => { roadR := 0, speed := Rat.divInt 1 10, dirR := 0, rR := 0, gR := 0, bR := 0 }
  carMove := fun _ => { dirPick := 0, teleRoad := 0, teleDir := 0 }
  spawnRoll := 99
  spawnDraw := { roadR := 0, speed := Rat.divInt 1 10, dirR := 0, rR := 0, gR := 0, bR := 0 }
  shuffleSpots := id
  typeR := fun _ => 0
  styleR := fun _ => 0
  variantR := fun _ => 0
  treeR := fun _ => 100
  densR := fun _ _ => 4
  treeAgeR := fun _ _ => 9
  shuffleRoads := id

/-- A 10×10 state at step 10: a single horizontal road at row 5 and one
residential building at (2,4); its empty neighbour (1,4) is a road-extension
candidate. -/
def stC2 : SimState where
  W := 10
  H := 10
  grid := fun x y =>
    if y = 5 ∧ 0 ≤ x ∧ x < 10 then ROAD
    else if x = 2 ∧ y = 4 then RESIDENTIAL else EMPTY
  buildings := fun x y =>
    if x = 2 ∧ y = 4 then { initialBuilding with type := RESIDENTIAL, density := 1 }
    else initialBuilding
  cars := []
  roads := (List.range 10).map fun x => ((x : ℤ), 5)
  waterCells := []
  currentStep := 10

/-- A 10×10 state with an empty road list but one forest cell at (2,2). -/
def stC3 : SimState where
  W := 10
  H := 10
  grid := fun x y => if x = 2 ∧ y = 2 then FOREST else EMPTY
  buildings := fun x y =>
    if x = 2 ∧ y = 2 then { initialBuilding with type := FOREST } else initialBuilding
  cars := []
  roads := []
  waterCells := []
  currentStep := 0

/-- A 10×10 state at step 50 with two road cells (0,1) and (1,0): their
common empty neighbour (1,1) occurs twice in the building-candidate list. -/
def stC5 : SimState where
  W := 10
  H := 10
  grid := fun x y => if (x = 0 ∧ y = 1) ∨ (x = 1 ∧ y = 0) then ROAD else EMPTY
  buildings := fun _ _ => initialBuilding
  cars := []
  roads := [(0, 1), (1, 0)]
  waterCells := []
  currentStep := 50

/-- An oracle whose candidate shuffle (a genuine permutation) moves both
copies of (1,1) to the front, and whose percentile rolls are 0 for the first
admitted candidate and 84 for the second. -/
def rngC5 : Rng :=
  { rngW with
    shuffleSpots := fun l =>
      l.filter (fun p => decide (p = ((1 : ℤ), (1 : ℤ)))) ++
      l.filter (fun p => decide (¬ p = ((1 : ℤ), (1 : ℤ)))),
    typeR := fun i => if i = 0 then 0 else 84 }

/-- The 10×10 scenario of the end-to-end growth property: the only non-empty
cells form the single horizontal road at row 5, step counter 0. -/
def stC8 : SimState where
  W := 10
  H := 10
  grid := fun x y => if y = 5 ∧ 0 ≤ x ∧ x < 10 then ROAD else EMPTY
  buildings := fun _ _ => initialBuilding
  cars := []
  roads := (List.range 10).map fun x => ((x : ℤ), 5)
  waterCells := []
  currentStep := 0

/-- A 2-road-cell grid for the car-redirect witness: roads at (1,1) and
(1,2); a car at (1,1) heading left (direction 0) has a blocked straight
target and exactly one non-reverse road candidate (direction 1). -/
def stC7grid : ℤ → ℤ → CellType :=
  fun x y => if x = 1 ∧ (y = 1 ∨ y = 2) then ROAD else EMPTY

/-- The car of the redirect witness. -/
def carC7 : Car where
  x := ((1 : ℤ) : ℚ)
  y := ((1 : ℤ) : ℚ)
  speed := Rat.divInt 1 10
  direction := 0
  roadIndex := 0
  color := (150, 150, 150)

/-- The grid condition under which a cell may be a placement target at some
point of the admission loop: empty at loop entry, or already re-placed. -/
def Placeable (st : SimState) (q : ℤ × ℤ) : Prop :=
  st.grid q.1 q.2 = EMPTY ∨ st.grid q.1 q.2 = RESIDENTIAL ∨
  st.grid q.1 q.2 = COMMERCIAL ∨ st.grid q.1 q.2 = INDUSTRIAL ∨ st.grid q.1 q.2 = PARK

/-- The car every `rngW` initial spawn produces: road index 0, i.e. (0,5). -/
def carW : Car where
  x := ((0 : ℤ) : ℚ)
  y := ((5 : ℤ) : ℚ)
  speed := Rat.divInt 1 10
  direction := 0
  roadIndex := 0
  color := (150, 150, 150)

/-! ## Basic lemmas -/

theorem updG_self (g : ℤ → ℤ → CellType) (x y : ℤ) (c : CellType) :
    updG g x y c x y = c := by
  simp [updG]

theorem updG_ne (g : ℤ → ℤ → CellType) (x y : ℤ) (c : CellType) {a b : ℤ}
    (h : ¬(a = x ∧ b = y)) : updG g x y c a b = g a b := by
  simp [updG, h]

theorem updG_cases (g : ℤ → ℤ → CellType) (x y : ℤ) (c : CellType) (a b : ℤ) :
    updG g x y c a b = c ∨ updG g x y c a b = g a b := by
  unfold updG
  split
  · exact Or.inl rfl
  · exact Or.inr rfl

theorem updB_self (g : ℤ → ℤ → Building) (x y : ℤ) (c : Building) :
    updB g x y c x y = c := by
  simp [updB]

theorem updB_ne (g : ℤ → ℤ → Building) (x y : ℤ) (c : Building) {a b : ℤ}
    (h : ¬(a = x ∧ b = y)) : updB g x y c a b = g a b := by
  simp [updB, h]

theorem setWater_W (st : SimState) (x y : ℤ) : (setWater st x y).W = st.W := rfl

theorem setWater_H (st : SimState) (x y : ℤ) : (setWater st x y).H = st.H := rfl

theorem setWater_roads (st : SimState) (x y : ℤ) : (setWater st x y).roads = st.roads := rfl

theorem setWater_cars (st : SimState) (x y : ℤ) : (setWater st x y).cars = st.cars := rfl

theorem setWater_buildings (st : SimState) (x y : ℤ) :
    (setWater st x y).buildings = st.buildings := rfl

theorem setWater_step (st : SimState) (x y : ℤ) :
    (setWater st x y).currentStep = st.currentStep := rfl

theorem setRoad_W (st : SimState) (x y : ℤ) : (setRoad st x y).W = st.W := rfl

theorem setRoad_H (st : SimState) (x y : ℤ) : (setRoad st x y).H = st.H := rfl

theorem setRoad_cars (st : SimState) (x y : ℤ) : (setRoad st x y).cars = st.cars := rfl

theorem setRoad_water (st : SimState) (x y : ℤ) :
    (setRoad st x y).waterCells = st.waterCells := rfl

theorem setRoad_buildings (st : SimState) (x y : ℤ) :
    (setRoad st x y).buildings = st.buildings := rfl

theorem setRoad_step (st : SimState) (x y : ℤ) :
    (setRoad st x y).currentStep = st.currentStep := rfl

/-- `truncQ` is floor on nonnegative rationals and ceiling on negative ones:
exactly C's float-to-int truncation toward zero. -/
theorem truncQ_eq (q : ℚ) : truncQ q = if 0 ≤ q then ⌊q⌋ else ⌈q⌉ := by
  unfold truncQ
  split
  · rename_i h
    rw [Rat.floor_def]
    exact Int.tdiv_eq_ediv (Rat.num_nonneg.mpr h) (by positivity)
  · rename_i h
    have h2 : ⌈q⌉ = -⌊-q⌋ := by
      rw [Int.floor_neg]
      ring
    rw [h2, Rat.floor_def, Rat.neg_num q, Rat.neg_den q]
    have h3 : q.num.tdiv q.den = -((-q.num).tdiv q.den) := by
      rw [Int.neg_tdiv, neg_neg]
    rw [h3]
    congr 1
    exact Int.tdiv_eq_ediv
      (by have := Rat.num_neg.mpr (lt_of_not_le h); omega)
      (by positivity)

theorem truncQ_intCast (n : ℤ) : truncQ ((n : ℤ) : ℚ) = n := by
  rw [truncQ_eq]
  split
  · exact Int.floor_intCast n
  · exact Int.ceil_intCast n

/-- Bounds of a rational in terms of its truncation, when the truncation is
nonnegative. -/
theorem truncQ_bounds (q : ℚ) (h : 0 ≤ truncQ q) :
    (0 ≤ q ∧ (truncQ q : ℚ) ≤ q ∧ q < truncQ q + 1) ∨
    (truncQ q = 0 ∧ -1 < q ∧ q < 0) := by
  rw [truncQ_eq] at *
  by_cases hq : 0 ≤ q
  · left
    rw [if_pos hq] at *
    exact ⟨hq, Int.floor_le q, Int.lt_floor_add_one q⟩
  · right
    rw [if_neg hq] at *
    have hq' : q < 0 := lt_of_not_le hq
    have hc0 : ⌈q⌉ ≤ 0 := by
      rw [show (0:ℤ) = ⌈(0:ℚ)⌉ by simp]
      exact Int.ceil_le_ceil (le_of_lt hq')
    have hc : ⌈q⌉ = 0 := le_antisymm hc0 h
    refine ⟨hc, ?_, hq'⟩
    have := Int.ceil_lt_add_one q
    rw [hc] at this
    push_cast at this
    linarith [this]

/-- Step lemma, upward: adding `s ∈ (0,1)` moves the truncation by at most
one cell up. -/
theorem truncQ_step_up (q s : ℚ) (ht : 0 ≤ truncQ q) (hs0 : 0 < s) (hs1 : s < 1) :
    truncQ (q + s) = truncQ q ∨ truncQ (q + s) = truncQ q + 1 := by
  rcases truncQ_bounds q ht with ⟨hq0, hl, hu⟩ | ⟨h0, hm, hn⟩
  · have hpos : (0:ℚ) ≤ q + s := by linarith
    have heq : truncQ (q + s) = ⌊q + s⌋ := by rw [truncQ_eq, if_pos hpos]
    rw [heq]
    by_cases hcase : q + s < (truncQ q : ℚ) + 1
    · left
      rw [Int.floor_eq_iff]
      exact ⟨by linarith, by push_cast; linarith⟩
    · right
      rw [Int.floor_eq_iff]
      rw [not_lt] at hcase
      push_cast
      exact ⟨by linarith, by linarith⟩
  · by_cases hpos : (0:ℚ) ≤ q + s
    · have heq : truncQ (q + s) = ⌊q + s⌋ := by rw [truncQ_eq, if_pos hpos]
      rw [heq, h0]
      by_cases hcase : q + s < 1
      · left
        rw [Int.floor_eq_iff]
        push_cast
        exact ⟨hpos, by linarith⟩
      · right
        rw [Int.floor_eq_iff]
        rw [not_lt] at hcase
        push_cast
        exact ⟨by linarith, by linarith⟩
    · left
      rw [not_le] at hpos
      have heq : truncQ (q + s) = ⌈q + s⌉ := by rw [truncQ_eq, if_neg (not_le.mpr hpos)]
      rw [heq, h0]
      rw [Int.ceil_eq_iff]
      push_cast
      exact ⟨by linarith, by linarith⟩

/-- Step lemma, downward: subtracting `s ∈ (0,1)` moves the truncation by at
most one cell down. -/
theorem truncQ_step_down (q s : ℚ) (ht : 0 ≤ truncQ q) (hs0 : 0 < s) (hs1 : s < 1) :
    truncQ (q - s) = truncQ q ∨ truncQ (q - s) = truncQ q - 1 := by
  rcases truncQ_bounds q ht with ⟨hq0, hl, hu⟩ | ⟨h0, hm, hn⟩
  · by_cases hpos : (0:ℚ) ≤ q - s
    · have heq : truncQ (q - s) = ⌊q - s⌋ := by rw [truncQ_eq, if_pos hpos]
      rw [heq]
      by_cases hcase : (truncQ q : ℚ) ≤ q - s
      · left
        rw [Int.floor_eq_iff]
        exact ⟨hcase, by push_cast; linarith⟩
      · right
        rw [Int.floor_eq_iff]
        rw [not_le] at hcase
        push_cast
        exact ⟨by linarith, by linarith⟩
    · -- q - s < 0 forces truncQ q = 0, and then the ceiling of q - s is 0
      rw [not_le] at hpos
      have ht0 : truncQ q = 0 := by
        by_contra hne
        have h1 : 1 ≤ truncQ q := lt_of_le_of_ne ht (Ne.symm hne)
        have h2 : (1:ℚ) ≤ (truncQ q : ℚ) := by exact_mod_cast h1
        linarith
      left
      have heq : truncQ (q - s) = ⌈q - s⌉ := by rw [truncQ_eq, if_neg (not_le.mpr hpos)]
      rw [heq, ht0]
      rw [Int.ceil_eq_iff]
      rw [ht0] at hl
      push_cast at hl ⊢
      exact ⟨by linarith, by linarith⟩
  · have hneg : q - s < 0 := by linarith
    have heq : truncQ (q - s) = ⌈q - s⌉ := by rw [truncQ_eq, if_neg (not_le.mpr hneg)]
    rw [heq, h0]
    by_cases hcase : -1 < q - s
    · left
      rw [Int.ceil_eq_iff]
      push_cast
      exact ⟨by linarith, by linarith⟩
    · right
      rw [Int.ceil_eq_iff]
      rw [not_lt] at hcase
      push_cast
      exact ⟨by linarith, by linarith⟩

/-! ## List helpers -/

theorem getD_mem {α : Type} (l : List α) (i : ℕ) (d : α) (h : i < l.length) :
    l.getD i d ∈ l := by
  induction l generalizing i with
  | nil => simp at h
  | cons a t ih =>
    cases i with
    | zero => simp [List.getD]
    | succ j =>
      have hj : j < t.length := by simpa using h
      simp only [List.getD_cons_succ]
      exact List.mem_cons_of_mem a (ih j hj)

theorem countP_eq_one_of_nodup {α : Type} [DecidableEq α] (l : List α) (a : α)
    (hnd : l.Nodup) (hm : a ∈ l) :
    l.countP (fun x => decide (x = a)) = 1 := by
  induction l with
  | nil => simp at hm
  | cons b t ih =>
    rcases List.mem_cons.mp hm with rfl | hmt
    · rw [List.countP_cons]
      have hnot : a ∉ t := (List.nodup_cons.mp hnd).1
      have : t.countP (fun x => decide (x = a)) = 0 := by
        rw [List.countP_eq_zero]
        intro x hx
        simp only [decide_eq_true_eq]
        intro hxa
        exact hnot (hxa ▸ hx)
      simp [this]
    · rw [List.countP_cons]
      have hba : ¬ b = a := by
        rintro rfl
        exact (List.nodup_cons.mp hnd).1 hmt
      have := ih (List.nodup_cons.mp hnd).2 hmt
      simp [this, hba]

theorem foldl_pres_mem {α : Type} (P : SimState → Prop) (f : SimState → α → SimState)
    (l : List α) (h : ∀ s a, a ∈ l → P s → P (f s a)) :
    ∀ s, P s → P (l.foldl f s) := by
  induction l with
  | nil => intro s hs; simpa using hs
  | cons a t ih =>
    intro s hs
    simp only [List.foldl_cons]
    exact ih (fun s' b hb hs' => h s' b (List.mem_cons_of_mem a hb) hs') _
      (h s a (List.mem_cons_self a t) hs)

/-! ## Membership lemmas for candidate lists -/

theorem mem_buildingSpotsOf {st : SimState} {p : ℤ × ℤ} (h : p ∈ buildingSpotsOf st) :
    isValidCell st.W st.H p.1 p.2 ∧ st.grid p.1 p.2 = EMPTY := by
  unfold buildingSpotsOf at h
  rcases List.mem_flatMap.mp h with ⟨r, _, hm⟩
  rcases List.mem_filterMap.mp hm with ⟨d, _, heq⟩
  by_cases hc : isValidCell st.W st.H (r.1 + dx d) (r.2 + dy d) ∧
      st.grid (r.1 + dx d) (r.2 + dy d) = EMPTY
  · rw [if_pos hc] at heq
    cases heq
    exact hc
  · rw [if_neg hc] at heq
    cases heq

theorem mem_roadSpotsOf {st : SimState} {p : ℤ × ℤ} (h : p ∈ roadSpotsOf st) :
    isValidCell st.W st.H p.1 p.2 ∧ st.grid p.1 p.2 = EMPTY := by
  unfold roadSpotsOf at h
  rcases List.mem_flatMap.mp h with ⟨x, _, hm⟩
  rcases List.mem_flatMap.mp hm with ⟨y, _, hm2⟩
  by_cases hout : st.grid (x : ℤ) (y : ℤ) ≠ EMPTY ∧ st.grid (x : ℤ) (y : ℤ) ≠ ROAD ∧
      st.grid (x : ℤ) (y : ℤ) ≠ WATER
  · rw [if_pos hout] at hm2
    rcases List.mem_filterMap.mp hm2 with ⟨d, _, heq⟩
    simp only at heq
    by_cases hc : isValidCell st.W st.H ((x : ℤ) + dx d) ((y : ℤ) + dy d) ∧
        st.grid ((x : ℤ) + dx d) ((y : ℤ) + dy d) = EMPTY ∧
        (∃ d2 < 4, isValidCell st.W st.H ((x : ℤ) + dx d + dx d2) ((y : ℤ) + dy d + dy d2) ∧
          st.grid ((x : ℤ) + dx d + dx d2) ((y : ℤ) + dy d + dy d2) = ROAD)
    · rw [if_pos hc] at heq
      cases heq
      exact ⟨hc.1, hc.2.1⟩
    · rw [if_neg hc] at heq
      cases heq
  · rw [if_neg hout] at hm2
    simp at hm2

/-- If a cell's value differs from the written cell's old value, the write
does not touch it. -/
theorem updG_of_ne_val {g : ℤ → ℤ → CellType} {x y a b : ℤ} {c : CellType}
    (h : g a b ≠ g x y) : updG g x y c a b = g a b := by
  apply updG_ne
  rintro ⟨rfl, rfl⟩
  exact h rfl

theorem setWater_grid (st : SimState) (x y : ℤ) :
    (setWater st x y).grid = updG st.grid x y WATER := rfl

theorem setWater_waterCells (st : SimState) (x y : ℤ) :
    (setWater st x y).waterCells = st.waterCells ++ [(x, y)] := rfl

theorem setRoad_grid (st : SimState) (x y : ℤ) :
    (setRoad st x y).grid = updG st.grid x y ROAD := rfl

theorem setRoad_roads (st : SimState) (x y : ℤ) :
    (setRoad st x y).roads = st.roads ++ [(x, y)] := rfl

theorem setForestCell_grid (st : SimState) (x y : ℤ) (v : ℕ) :
    (setForestCell st x y v).grid = updG st.grid x y FOREST := rfl

theorem setFarmCell_grid (st : SimState) (x y : ℤ) (v : ℕ) :
    (setFarmCell st x y v).grid = updG st.grid x y FARM := rfl

/-! ## Invariant preservation: primitives -/

theorem SimInv_setWater {st : SimState} {x y : ℤ} (h : SimInv st)
    (hv : isValidCell st.W st.H x y) (he : st.grid x y = EMPTY) :
    SimInv (setWater st x y) := by
  obtain ⟨⟨hr1, hr2⟩, hw, hc, hd⟩ := h
  refine ⟨⟨?_, ?_⟩, ?_, ?_, hd⟩
  · intro p hp
    obtain ⟨hpv, hpr⟩ := hr1 p hp
    refine ⟨hpv, ?_⟩
    rw [setWater_grid, updG_of_ne_val (by rw [hpr, he]; simp)]
    exact hpr
  · intro a b hv' hg
    rw [setWater_grid] at hg
    rcases updG_cases st.grid x y WATER a b with hc' | hc'
    · rw [hg] at hc'
      cases hc'
    · rw [hc'] at hg
      exact hr2 a b hv' hg
  · intro p hp
    rw [setWater_waterCells] at hp
    rcases List.mem_append.mp hp with hpo | hpn
    · obtain ⟨hpv, hpw⟩ := hw p hpo
      refine ⟨hpv, ?_⟩
      rw [setWater_grid, updG_of_ne_val (by rw [hpw, he]; simp)]
      exact hpw
    · have : p = (x, y) := by simpa using hpn
      subst this
      exact ⟨hv, by rw [setWater_grid]; exact updG_self _ _ _ _⟩
  · intro c hcc
    obtain ⟨h1, h2, h3⟩ := hc c hcc
    refine ⟨h1, ?_, h3⟩
    rw [setWater_grid, updG_of_ne_val (by rw [h2, he]; simp)]
    exact h2

theorem SimInv_setRoad {st : SimState} {x y : ℤ} (h : SimInv st)
    (hv : isValidCell st.W st.H x y)
    (he : st.grid x y = EMPTY ∨ st.grid x y = ROAD) :
    SimInv (setRoad st x y) := by
  obtain ⟨⟨hr1, hr2⟩, hw, hc, hd⟩ := h
  refine ⟨⟨?_, ?_⟩, ?_, ?_, hd⟩
  · intro p hp
    rw [setRoad_roads] at hp
    rcases List.mem_append.mp hp with hpo | hpn
    · obtain ⟨hpv, hpr⟩ := hr1 p hpo
      refine ⟨hpv, ?_⟩
      rw [setRoad_grid]
      rcases updG_cases st.grid x y ROAD p.1 p.2 with hc' | hc'
      · exact hc'
      · rw [hc']
        exact hpr
    · have : p = (x, y) := by simpa using hpn
      subst this
      exact ⟨hv, by rw [setRoad_grid]; exact updG_self _ _ _ _⟩
  · intro a b hv' hg
    rw [setRoad_grid] at hg
    rw [setRoad_roads]
    by_cases hab : a = x ∧ b = y
    · obtain ⟨rfl, rfl⟩ := hab
      simp
    · rw [updG_ne _ _ _ _ hab] at hg
      exact List.mem_append_left _ (hr2 a b hv' hg)
  · intro p hp
    obtain ⟨hpv, hpw⟩ := hw p hp
    refine ⟨hpv, ?_⟩
    rw [setRoad_grid,
      updG_of_ne_val (by rcases he with he | he <;> rw [hpw, he] <;> simp)]
    exact hpw
  · intro c hcc
    obtain ⟨h1, h2, h3⟩ := hc c hcc
    refine ⟨h1, ?_, h3⟩
    rw [setRoad_grid]
    rcases updG_cases st.grid x y ROAD (truncQ c.x) (truncQ c.y) with hc' | hc'
    · exact hc'
    · rw [hc']
      exact h2

theorem SimInv_setForestCell {st : SimState} {x y : ℤ} {v : ℕ} (h : SimInv st)
    (hv : isValidCell st.W st.H x y) (he : st.grid x y = EMPTY) :
    SimInv (setForestCell st x y v) := by
  obtain ⟨⟨hr1, hr2⟩, hw, hc, hd⟩ := h
  refine ⟨⟨?_, ?_⟩, ?_, ?_, ?_⟩
  · intro p hp
    obtain ⟨hpv, hpr⟩ := hr1 p hp
    refine ⟨hpv, ?_⟩
    rw [setForestCell_grid, updG_of_ne_val (by rw [hpr, he]; simp)]
    exact hpr
  · intro a b hv' hg
    rw [setForestCell_grid] at hg
    rcases updG_cases st.grid x y FOREST a b with hc' | hc'
    · rw [hg] at hc'
      cases hc'
    · rw [hc'] at hg
      exact hr2 a b hv' hg
  · intro p hp
    obtain ⟨hpv, hpw⟩ := hw p hp
    refine ⟨hpv, ?_⟩
    rw [setForestCell_grid, updG_of_ne_val (by rw [hpw, he]; simp)]
    exact hpw
  · intro c hcc
    obtain ⟨h1, h2, h3⟩ := hc c hcc
    refine ⟨h1, ?_, h3⟩
    rw [setForestCell_grid, updG_of_ne_val (by rw [h2, he]; simp)]
    exact h2
  · intro a b
    show (updB st.buildings x y _ a b).density ≤ 3
    unfold updB
    split
    · exact hd x y
    · exact hd a b

theorem SimInv_setFarmCell {st : SimState} {x y : ℤ} {v : ℕ} (h : SimInv st)
    (hv : isValidCell st.W st.H x y) (he : st.grid x y = EMPTY) :
    SimInv (setFarmCell st x y v) := by
  obtain ⟨⟨hr1, hr2⟩, hw, hc, hd⟩ := h
  refine ⟨⟨?_, ?_⟩, ?_, ?_, ?_⟩
  · intro p hp
    obtain ⟨hpv, hpr⟩ := hr1 p hp
    refine ⟨hpv, ?_⟩
    rw [setFarmCell_grid, updG_of_ne_val (by rw [hpr, he]; simp)]
    exact hpr
  · intro a b hv' hg
    rw [setFarmCell_grid] at hg
    rcases updG_cases st.grid x y FARM a b with hc' | hc'
    · rw [hg] at hc'
      cases hc'
    · rw [hc'] at hg
      exact hr2 a b hv' hg
  · intro p hp
    obtain ⟨hpv, hpw⟩ := hw p hp
    refine ⟨hpv, ?_⟩
    rw [setFarmCell_grid, updG_of_ne_val (by rw [hpw, he]; simp)]
    exact hpw
  · intro c hcc
    obtain ⟨h1, h2, h3⟩ := hc c hcc
    refine ⟨h1, ?_, h3⟩
    rw [setFarmCell_grid, updG_of_ne_val (by rw [h2, he]; simp)]
    exact h2
  · intro a b
    show (updB st.buildings x y _ a b).density ≤ 3
    unfold updB
    split
    · exact hd x y
    · exact hd a b

/-! ## Invariant preservation: terrain generation -/

theorem SimInv_riverStamp {st : SimState} (h : SimInv st) (cx cy : ℤ) :
    SimInv (riverStamp st cx cy) := by
  unfold riverStamp
  refine foldl_pres_mem SimInv _ _ (fun s o _ hs => ?_) st h
  split
  · rename_i hcond
    exact SimInv_setWater hs hcond.1 hcond.2
  · exact hs

theorem SimInv_riverWalk {rng : Rng} {i : ℕ} :
    ∀ (len j dir : ℕ) (x y : ℤ) (st : SimState), SimInv st →
      SimInv (riverWalk rng i len j dir x y st) := by
  intro len
  induction len with
  | zero => intro j dir x y st h; exact h
  | succ n ih =>
    intro j dir x y st h
    unfold riverWalk
    dsimp only
    split <;> split
    all_goals
      first
        | exact ih _ _ _ _ _ (SimInv_riverStamp h x y)
        | exact SimInv_riverStamp h x y

theorem SimInv_lakeFill {rng : Rng} {i : ℕ} :
    ∀ (fuel : ℕ) (q : List (ℤ × ℤ)) (size k : ℕ) (st : SimState), SimInv st →
      SimInv (lakeFill rng i fuel q size k st) := by
  intro fuel
  induction fuel with
  | zero => intro q size k st h; exact h
  | succ n ih =>
    intro q size k st h
    match q, size with
    | [], _ => exact h
    | _ :: _, 0 => exact h
    | (x, y) :: q', size' + 1 =>
      unfold lakeFill
      split
      · rename_i hcond
        exact ih _ _ _ _ (SimInv_setWater h hcond.1 hcond.2)
      · exact ih _ _ _ _ h

theorem SimInv_forestFill {rng : Rng} {i : ℕ} :
    ∀ (fuel : ℕ) (q : List (ℤ × ℤ)) (size k : ℕ) (st : SimState), SimInv st →
      SimInv (forestFill rng i fuel q size k st) := by
  intro fuel
  induction fuel with
  | zero => intro q size k st h; exact h
  | succ n ih =>
    intro q size k st h
    match q, size with
    | [], _ => exact h
    | _ :: _, 0 => exact h
    | (x, y) :: q', size' + 1 =>
      unfold forestFill
      split
      · rename_i hcond
        exact ih _ _ _ _ (SimInv_setForestCell h hcond.1 hcond.2)
      · exact ih _ _ _ _ h

theorem SimInv_genWaterBody {rng : Rng} {st : SimState} (h : SimInv st) (i : ℕ) :
    SimInv (genWaterBody rng st i) := by
  unfold genWaterBody
  split
  · exact SimInv_riverWalk _ _ _ _ _ _ h
  · exact SimInv_lakeFill _ _ _ _ _ h

theorem SimInv_genForest {rng : Rng} {st : SimState} (h : SimInv st) (i : ℕ) :
    SimInv (genForest rng st i) := by
  unfold genForest
  exact SimInv_forestFill _ _ _ _ _ h

theorem SimInv_genFarm {rng : Rng} {st : SimState} (h : SimInv st) (i : ℕ) :
    SimInv (genFarm rng st i) := by
  unfold genFarm
  refine foldl_pres_mem SimInv _ _ (fun s o _ hs => ?_) st h
  split
  · rename_i hcond
    exact SimInv_setFarmCell hs hcond.1 hcond.2
  · exact hs

theorem SimInv_generateTerrain {rng : Rng} {st : SimState} (h : SimInv st) :
    SimInv (generateTerrain rng st) := by
  unfold generateTerrain
  refine foldl_pres_mem SimInv _ _ (fun s i _ hs => SimInv_genFarm hs i) _ ?_
  refine foldl_pres_mem SimInv _ _ (fun s i _ hs => SimInv_genForest hs i) _ ?_
  exact foldl_pres_mem SimInv _ _ (fun s i _ hs => SimInv_genWaterBody hs i) _ h

/-! ## Invariant preservation: roads and cars -/

theorem SimInv_branchWalk {d : ℕ} :
    ∀ (len : ℕ) (x y : ℤ) (st : SimState), SimInv st →
      SimInv (branchWalk d len x y st) := by
  intro len
  induction len with
  | zero => intro x y st h; exact h
  | succ n ih =>
    intro x y st h
    unfold branchWalk
    dsimp only
    split
    · rename_i hcond
      exact ih _ _ _ (SimInv_setRoad h hcond.1 (Or.inl hcond.2))
    · exact h

theorem speed_bounds_of_range {q : ℚ} (h1 : Rat.divInt 1 20 ≤ q)
    (h2 : q ≤ Rat.divInt 1 5) : 0 < q ∧ q < 1 :=
  ⟨lt_of_lt_of_le (by decide) h1, lt_of_le_of_lt h2 (by decide)⟩

theorem SimInv_addRandomCar {d : CarDraw} {st : SimState}
    (hsp : 0 < d.speed ∧ d.speed < 1) (h : SimInv st) :
    SimInv (addRandomCar d st) := by
  unfold addRandomCar
  split
  · exact h
  · rename_i hne
    obtain ⟨⟨hr1, hr2⟩, hw, hc, hd⟩ := h
    have hlen : 0 < st.roads.length := List.length_pos.mpr hne
    have hlt : d.roadR % st.roads.length < st.roads.length := Nat.mod_lt _ hlen
    have hmem : st.roads.getD (d.roadR % st.roads.length) (0, 0) ∈ st.roads :=
      getD_mem _ _ _ hlt
    obtain ⟨hpv, hpr⟩ := hr1 _ hmem
    refine ⟨⟨hr1, hr2⟩, hw, ?_, hd⟩
    intro c hcc
    rcases List.mem_append.mp hcc with hco | hcn
    · exact hc c hco
    · have hcq := List.mem_singleton.mp hcn
      subst hcq
      dsimp only
      rw [truncQ_intCast, truncQ_intCast]
      exact ⟨hpv, hpr, hsp.1, hsp.2⟩

theorem mem_possibleDirs {W H : ℕ} {g : ℤ → ℤ → CellType} {c : Car} {d : ℕ} :
    d ∈ possibleDirs W H g c ↔
      d < 4 ∧ ¬ d = (c.direction + 2) % 4 ∧
      isValidCell W H (truncQ c.x + dx d) (truncQ c.y + dy d) ∧
      g (truncQ c.x + dx d) (truncQ c.y + dy d) = ROAD := by
  unfold possibleDirs
  rw [List.mem_filter]
  simp [List.mem_range, and_assoc]

/-- Moving a fractional position one cardinal step of size `s ∈ (0,1)` either
keeps the truncated cell or moves it to the step's target cell. -/
theorem truncQ_move (cx cy s : ℚ) (d : ℕ) (hd : d < 4)
    (htx : 0 ≤ truncQ cx) (hty : 0 ≤ truncQ cy) (hs0 : 0 < s) (hs1 : s < 1) :
    (truncQ (cx + ((dx d : ℤ) : ℚ) * s) = truncQ cx ∧
     truncQ (cy + ((dy d : ℤ) : ℚ) * s) = truncQ cy) ∨
    (truncQ (cx + ((dx d : ℤ) : ℚ) * s) = truncQ cx + dx d ∧
     truncQ (cy + ((dy d : ℤ) : ℚ) * s) = truncQ cy + dy d) := by
  interval_cases d
  · -- d = 0 : left
    have h1 : cx + ((dx 0 : ℤ) : ℚ) * s = cx - s := by
      simp only [dx]
      push_cast
      ring
    have h2 : cy + ((dy 0 : ℤ) : ℚ) * s = cy := by
      simp only [dy]
      push_cast
      ring
    rw [h1, h2]
    rcases truncQ_step_down cx s htx hs0 hs1 with hstep | hstep
    · exact Or.inl ⟨hstep, rfl⟩
    · refine Or.inr ⟨?_, ?_⟩
      · rw [hstep]
        simp only [dx]
        omega
      · simp only [dy]
        omega
  · -- d = 1 : down
    have h1 : cx + ((dx 1 : ℤ) : ℚ) * s = cx := by
      simp only [dx]
      push_cast
      ring
    have h2 : cy + ((dy 1 : ℤ) : ℚ) * s = cy + s := by
      simp only [dy]
      push_cast
      ring
    rw [h1, h2]
    rcases truncQ_step_up cy s hty hs0 hs1 with hstep | hstep
    · exact Or.inl ⟨rfl, hstep⟩
    · refine Or.inr ⟨?_, ?_⟩
      · simp only [dx]
        omega
      · rw [hstep]
        simp only [dy]
  · -- d = 2 : right
    have h1 : cx + ((dx 2 : ℤ) : ℚ) * s = cx + s := by
      simp only [dx]
      push_cast
      ring
    have h2 : cy + ((dy 2 : ℤ) : ℚ) * s = cy := by
      simp only [dy]
      push_cast
      ring
    rw [h1, h2]
    rcases truncQ_step_up cx s htx hs0 hs1 with hstep | hstep
    · exact Or.inl ⟨hstep, rfl⟩
    · refine Or.inr ⟨?_, ?_⟩
      · rw [hstep]
        simp only [dx]
      · simp only [dy]
        omega
  · -- d = 3 : up
    have h1 : cx + ((dx 3 : ℤ) : ℚ) * s = cx := by
      simp only [dx]
      push_cast
      ring
    have h2 : cy + ((dy 3 : ℤ) : ℚ) * s = cy - s := by
      simp only [dy]
      push_cast
      ring
    rw [h1, h2]
    rcases truncQ_step_down cy s hty hs0 hs1 with hstep | hstep
    · exact Or.inl ⟨rfl, hstep⟩
    · refine Or.inr ⟨?_, ?_⟩
      · simp only [dx]
        omega
      · rw [hstep]
        simp only [dy]
        omega

theorem moveCar_inv (W H : ℕ) (g : ℤ → ℤ → CellType) (roads : List (ℤ × ℤ))
    (ch : CarChoice) (c : Car)
    (hA : ∀ p ∈ roads, isValidCell W H p.1 p.2 ∧ g p.1 p.2 = ROAD)
    (hroads : roads ≠ [])
    (hv : isValidCell W H (truncQ c.x) (truncQ c.y))
    (hg : g (truncQ c.x) (truncQ c.y) = ROAD)
    (hs0 : 0 < c.speed) (hs1 : c.speed < 1) :
    isValidCell W H (truncQ (moveCar W H g roads ch c).x)
        (truncQ (moveCar W H g roads ch c).y) ∧
      g (truncQ (moveCar W H g roads ch c).x) (truncQ (moveCar W H g roads ch c).y) = ROAD ∧
      (moveCar W H g roads ch c).speed = c.speed := by
  unfold moveCar
  dsimp only
  split
  · rename_i hcond
    exact ⟨hcond.1, hcond.2, rfl⟩
  · rename_i hcond
    split
    · -- teleport
      have hlen : 0 < roads.length := List.length_pos.mpr hroads
      have hlt : ch.teleRoad % roads.length < roads.length := Nat.mod_lt _ hlen
      have hmem : roads.getD (ch.teleRoad % roads.length) (0, 0) ∈ roads :=
        getD_mem _ _ _ hlt
      obtain ⟨hpv, hpr⟩ := hA _ hmem
      dsimp only
      rw [truncQ_intCast, truncQ_intCast]
      exact ⟨hpv, hpr, rfl⟩
    · -- redirect
      rename_i hpd
      have hlen : 0 < (possibleDirs W H g c).length := List.length_pos.mpr hpd
      have hlt : ch.dirPick % (possibleDirs W H g c).length < (possibleDirs W H g c).length :=
        Nat.mod_lt _ hlen
      have hmem : (possibleDirs W H g c).getD (ch.dirPick % (possibleDirs W H g c).length) 0 ∈
          possibleDirs W H g c := getD_mem _ _ _ hlt
      obtain ⟨hd4, hdne, hdv, hdr⟩ := mem_possibleDirs.mp hmem
      dsimp only
      rcases truncQ_move c.x c.y c.speed _ hd4 hv.1 hv.2.2.1 hs0 hs1 with
        ⟨hmx, hmy⟩ | ⟨hmx, hmy⟩
      · rw [hmx, hmy]
        exact ⟨hv, hg, rfl⟩
      · rw [hmx, hmy]
        exact ⟨hdv, hdr, rfl⟩

theorem snd_mem_of_mem_enum {α : Type} {l : List α} {p : ℕ × α} (h : p ∈ l.enum) :
    p.2 ∈ l := by
  have := List.mem_map_of_mem Prod.snd h
  rwa [List.enum_map_snd] at this

theorem SimInv_updateCars {rng : Rng} {st : SimState} (hrv : rng.Valid) (h : SimInv st) :
    SimInv (updateCars rng st) := by
  unfold updateCars
  dsimp only
  split
  · exact h
  · rename_i hne
    obtain ⟨⟨hr1, hr2⟩, hw, hc, hd⟩ := h
    have hmoved : SimInv (SimState.mk st.W st.H st.grid st.buildings
        (st.cars.enum.map (fun ic => moveCar st.W st.H st.grid st.roads (rng.carMove ic.1) ic.2))
        st.roads st.waterCells st.currentStep) := by
      refine ⟨⟨hr1, hr2⟩, hw, ?_, hd⟩
      intro c hcc
      rcases List.mem_map.mp hcc with ⟨ic, hic, rfl⟩
      have hco : ic.2 ∈ st.cars := snd_mem_of_mem_enum hic
      obtain ⟨h1, h2, h3, h4⟩ := hc ic.2 hco
      obtain ⟨m1, m2, m3⟩ := moveCar_inv st.W st.H st.grid st.roads (rng.carMove ic.1) ic.2
        hr1 hne h1 h2 h3 h4
      rw [m3]
      exact ⟨m1, m2, h3, h4⟩
    split
    · exact SimInv_addRandomCar (speed_bounds_of_range hrv.2.2.2.1 hrv.2.2.2.2) hmoved
    · exact hmoved

/-! ## Invariant preservation: growth engine -/

theorem decideType_cases (W H : ℕ) (g : ℤ → ℤ → CellType) (x y : ℤ) (step r : ℕ) :
    decideType W H g x y step r = RESIDENTIAL ∨ decideType W H g x y step r = COMMERCIAL ∨
    decideType W H g x y step r = INDUSTRIAL ∨ decideType W H g x y step r = PARK := by
  unfold decideType
  dsimp only
  split_ifs <;> simp

theorem placeOne_grid (rng : Rng) (i : ℕ) (st : SimState) (p : ℤ × ℤ) :
    (placeOne rng i st p).grid =
      updG st.grid p.1 p.2
        (decideType st.W st.H st.grid p.1 p.2 st.currentStep (rng.typeR i % 101)) := rfl

theorem placeOne_roads (rng : Rng) (i : ℕ) (st : SimState) (p : ℤ × ℤ) :
    (placeOne rng i st p).roads = st.roads := rfl

theorem placeOne_W (rng : Rng) (i : ℕ) (st : SimState) (p : ℤ × ℤ) :
    (placeOne rng i st p).W = st.W := rfl

theorem placeOne_H (rng : Rng) (i : ℕ) (st : SimState) (p : ℤ × ℤ) :
    (placeOne rng i st p).H = st.H := rfl

theorem placeOne_cars (rng : Rng) (i : ℕ) (st : SimState) (p : ℤ × ℤ) :
    (placeOne rng i st p).cars = st.cars := rfl

theorem placeOne_water (rng : Rng) (i : ℕ) (st : SimState) (p : ℤ × ℤ) :
    (placeOne rng i st p).waterCells = st.waterCells := rfl

theorem placeOne_step (rng : Rng) (i : ℕ) (st : SimState) (p : ℤ × ℤ) :
    (placeOne rng i st p).currentStep = st.currentStep := rfl

theorem SimInv_placeOne {rng : Rng} {i : ℕ} {st : SimState} {p : ℤ × ℤ}
    (h : SimInv st) (hp : Placeable st p) : SimInv (placeOne rng i st p) := by
  obtain ⟨⟨hr1, hr2⟩, hw, hc, hd⟩ := h
  set t := decideType st.W st.H st.grid p.1 p.2 st.currentStep (rng.typeR i % 101) with ht
  have htc := decideType_cases st.W st.H st.grid p.1 p.2 st.currentStep (rng.typeR i % 101)
  rw [← ht] at htc
  refine ⟨⟨?_, ?_⟩, ?_, ?_, ?_⟩
  · intro q hq
    rw [placeOne_roads] at hq
    obtain ⟨hqv, hqr⟩ := hr1 q hq
    refine ⟨hqv, ?_⟩
    rw [placeOne_grid, ← ht,
      updG_of_ne_val (by rcases hp with h | h | h | h | h <;> rw [hqr, h] <;> simp)]
    exact hqr
  · intro a b hv' hg
    rw [placeOne_grid, ← ht] at hg
    rcases updG_cases st.grid p.1 p.2 t a b with hc' | hc'
    · rw [hg] at hc'
      rcases htc with h | h | h | h <;> rw [h] at hc' <;> cases hc'
    · rw [hc'] at hg
      exact hr2 a b hv' hg
  · intro q hq
    rw [placeOne_water] at hq
    obtain ⟨hqv, hqw⟩ := hw q hq
    refine ⟨hqv, ?_⟩
    rw [placeOne_grid, ← ht,
      updG_of_ne_val (by rcases hp with h | h | h | h | h <;> rw [hqw, h] <;> simp)]
    exact hqw
  · intro c hcc
    rw [placeOne_cars] at hcc
    obtain ⟨h1, h2, h3⟩ := hc c hcc
    refine ⟨h1, ?_, h3⟩
    rw [placeOne_grid, ← ht,
      updG_of_ne_val (by rcases hp with h | h | h | h | h <;> rw [h2, h] <;> simp)]
    exact h2
  · intro a b
    show (updB st.buildings p.1 p.2 _ a b).density ≤ 3
    unfold updB
    split
    · simp
    · exact hd a b

theorem SimInv_placeBuildings {rng : Rng} :
    ∀ (l : List (ℤ × ℤ)) (i : ℕ) (st : SimState), SimInv st →
      (∀ q ∈ l, Placeable st q) → SimInv (placeBuildings rng i st l) := by
  intro l
  induction l with
  | nil => intro i st h _; exact h
  | cons p rest ih =>
    intro i st h hall
    unfold placeBuildings
    refine ih _ _ (SimInv_placeOne h (hall p (List.mem_cons_self _ _))) ?_
    intro q hq
    have hples := hall q (List.mem_cons_of_mem _ hq)
    unfold Placeable
    rw [placeOne_grid]
    rcases updG_cases st.grid p.1 p.2
        (decideType st.W st.H st.grid p.1 p.2 st.currentStep (rng.typeR i % 101)) q.1 q.2 with
      hc' | hc'
    · rw [hc']
      rcases decideType_cases st.W st.H st.grid p.1 p.2 st.currentStep (rng.typeR i % 101) with
        h' | h' | h' | h' <;> rw [h'] <;> simp
    · rw [hc']
      exact hples

theorem matureOne_density_le {c : CellType} {b : Building} {dR tR : ℕ}
    (h : b.density ≤ 3) : (matureOne c b dR tR).density ≤ 3 := by
  unfold matureOne
  dsimp only
  split_ifs <;> simp_all <;> omega

theorem matureAll_grid (rng : Rng) (st : SimState) : (matureAll rng st).grid = st.grid := rfl

theorem matureAll_roads (rng : Rng) (st : SimState) : (matureAll rng st).roads = st.roads := rfl

theorem matureAll_cars (rng : Rng) (st : SimState) : (matureAll rng st).cars = st.cars := rfl

theorem matureAll_water (rng : Rng) (st : SimState) :
    (matureAll rng st).waterCells = st.waterCells := rfl

theorem matureAll_W (rng : Rng) (st : SimState) : (matureAll rng st).W = st.W := rfl

theorem matureAll_H (rng : Rng) (st : SimState) : (matureAll rng st).H = st.H := rfl

theorem matureAll_step (rng : Rng) (st : SimState) :
    (matureAll rng st).currentStep = st.currentStep := rfl

theorem SimInv_matureAll {rng : Rng} {st : SimState} (h : SimInv st) :
    SimInv (matureAll rng st) := by
  obtain ⟨hr, hw, hc, hd⟩ := h
  refine ⟨hr, hw, hc, ?_⟩
  intro a b
  show (if _ then matureOne _ _ _ _ else st.buildings a b).density ≤ 3
  split
  · exact matureOne_density_le (hd a b)
  · exact hd a b

theorem addRoadCells_roads : ∀ (l : List (ℤ × ℤ)) (st : SimState),
    (addRoadCells st l).roads = st.roads ++ l := by
  intro l
  induction l with
  | nil => intro st; simp [addRoadCells]
  | cons p rest ih =>
    intro st
    unfold addRoadCells
    rw [ih, setRoad_roads]
    simp

theorem addRoadCells_cars : ∀ (l : List (ℤ × ℤ)) (st : SimState),
    (addRoadCells st l).cars = st.cars := by
  intro l
  induction l with
  | nil => intro st; rfl
  | cons p rest ih => intro st; unfold addRoadCells; rw [ih, setRoad_cars]

theorem addRoadCells_water : ∀ (l : List (ℤ × ℤ)) (st : SimState),
    (addRoadCells st l).waterCells = st.waterCells := by
  intro l
  induction l with
  | nil => intro st; rfl
  | cons p rest ih => intro st; unfold addRoadCells; rw [ih, setRoad_water]

theorem addRoadCells_buildings : ∀ (l : List (ℤ × ℤ)) (st : SimState),
    (addRoadCells st l).buildings = st.buildings := by
  intro l
  induction l with
  | nil => intro st; rfl
  | cons p rest ih => intro st; unfold addRoadCells; rw [ih, setRoad_buildings]

theorem addRoadCells_W : ∀ (l : List (ℤ × ℤ)) (st : SimState),
    (addRoadCells st l).W = st.W := by
  intro l
  induction l with
  | nil => intro st; rfl
  | cons p rest ih => intro st; unfold addRoadCells; rw [ih, setRoad_W]

theorem addRoadCells_H : ∀ (l : List (ℤ × ℤ)) (st : SimState),
    (addRoadCells st l).H = st.H := by
  intro l
  induction l with
  | nil => intro st; rfl
  | cons p rest ih => intro st; unfold addRoadCells; rw [ih, setRoad_H]

theorem addRoadCells_step : ∀ (l : List (ℤ × ℤ)) (st : SimState),
    (addRoadCells st l).currentStep = st.currentStep := by
  intro l
  induction l with
  | nil => intro st; rfl
  | cons p rest ih => intro st; unfold addRoadCells; rw [ih, setRoad_step]

/-- The grid after the extension claim loop: the claimed cells hold `ROAD`,
everything else is untouched. -/
theorem addRoadCells_grid : ∀ (l : List (ℤ × ℤ)) (st : SimState) (a b : ℤ),
    (addRoadCells st l).grid a b = if (a, b) ∈ l then ROAD else st.grid a b := by
  intro l
  induction l with
  | nil => intro st a b; simp [addRoadCells]
  | cons p rest ih =>
    intro st a b
    unfold addRoadCells
    rw [ih, setRoad_grid]
    by_cases hmem : (a, b) ∈ rest
    · rw [if_pos hmem, if_pos (List.mem_cons_of_mem _ hmem)]
    · rw [if_neg hmem]
      by_cases hab : a = p.1 ∧ b = p.2
      · obtain ⟨rfl, rfl⟩ := hab
        rw [updG_self, if_pos (by simp)]
      · rw [updG_ne _ _ _ _ hab, if_neg (by
          intro hmm
          rcases List.mem_cons.mp hmm with hq | hq
          · exact hab ⟨congrArg Prod.fst hq, congrArg Prod.snd hq⟩
          · exact hmem hq)]

theorem SimInv_addRoadCells : ∀ (l : List (ℤ × ℤ)) (st : SimState), SimInv st →
    (∀ q ∈ l, isValidCell st.W st.H q.1 q.2 ∧
      (st.grid q.1 q.2 = EMPTY ∨ st.grid q.1 q.2 = ROAD)) →
    SimInv (addRoadCells st l) := by
  intro l
  induction l with
  | nil => intro st h _; exact h
  | cons p rest ih =>
    intro st h hall
    unfold addRoadCells
    obtain ⟨hv, he⟩ := hall p (List.mem_cons_self _ _)
    refine ih _ (SimInv_setRoad h hv he) ?_
    intro q hq
    obtain ⟨hqv, hqe⟩ := hall q (List.mem_cons_of_mem _ hq)
    refine ⟨hqv, ?_⟩
    rw [setRoad_grid]
    rcases updG_cases st.grid p.1 p.2 ROAD q.1 q.2 with hc' | hc'
    · rw [hc']
      exact Or.inr rfl
    · rw [hc']
      exact hqe

theorem SimInv_extendRoads {rng : Rng} {st : SimState} (hrv : rng.Valid) (h : SimInv st) :
    SimInv (extendRoads rng st) := by
  unfold extendRoads
  dsimp only
  refine SimInv_addRoadCells _ _ h ?_
  intro q hq
  have hq2 : q ∈ roadSpotsOf st :=
    (hrv.2.1 (roadSpotsOf st)).mem_iff.mp (List.take_subset _ _ hq)
  obtain ⟨hv, he⟩ := mem_roadSpotsOf hq2
  exact ⟨hv, Or.inl he⟩

theorem SimInv_growCity {rng : Rng} {st : SimState} (hrv : rng.Valid) (h : SimInv st) :
    SimInv (growCity rng st) := by
  unfold growCity
  dsimp only
  have h1 : SimInv (placeBuildings rng 0 st
      ((rng.shuffleSpots (buildingSpotsOf st)).take
        (min (1 + st.currentStep / 50) (buildingSpotsOf st).length))) := by
    refine SimInv_placeBuildings _ _ _ h ?_
    intro q hq
    have hq2 : q ∈ buildingSpotsOf st :=
      (hrv.1 (buildingSpotsOf st)).mem_iff.mp (List.take_subset _ _ hq)
    exact Or.inl (mem_buildingSpotsOf hq2).2
  have h2 := @SimInv_matureAll rng _ h1
  split
  · exact SimInv_extendRoads hrv h2
  · exact h2

theorem SimInv_simulationStep {rng : Rng} {st : SimState} (hrv : rng.Valid) (h : SimInv st) :
    SimInv (simulationStep rng st) := by
  unfold simulationStep
  dsimp only
  have h1 := SimInv_updateCars hrv h
  split
  · exact SimInv_growCity hrv h1
  · exact h1

/-! ## Dimension preservation through initialisation -/

theorem dims_riverStamp (st : SimState) (cx cy : ℤ) :
    (riverStamp st cx cy).W = st.W ∧ (riverStamp st cx cy).H = st.H := by
  unfold riverStamp
  refine foldl_pres_mem (fun s => s.W = st.W ∧ s.H = st.H) _ _ (fun s o _ hs => ?_) st ⟨rfl, rfl⟩
  split
  · exact hs
  · exact hs

theorem dims_riverWalk (rng : Rng) (i : ℕ) :
    ∀ (len j dir : ℕ) (x y : ℤ) (st : SimState),
      (riverWalk rng i len j dir x y st).W = st.W ∧
      (riverWalk rng i len j dir x y st).H = st.H := by
  intro len
  induction len with
  | zero => intro j dir x y st; exact ⟨rfl, rfl⟩
  | succ n ih =>
    intro j dir x y st
    unfold riverWalk
    dsimp only
    have hst := dims_riverStamp st x y
    split <;> split
    all_goals
      first
        | exact ⟨(ih _ _ _ _ _).1.trans hst.1, (ih _ _ _ _ _).2.trans hst.2⟩
        | exact hst

theorem dims_lakeFill (rng : Rng) (i : ℕ) :
    ∀ (fuel : ℕ) (q : List (ℤ × ℤ)) (size k : ℕ) (st : SimState),
      (lakeFill rng i fuel q size k st).W = st.W ∧
      (lakeFill rng i fuel q size k st).H = st.H := by
  intro fuel
  induction fuel with
  | zero => intro q size k st; exact ⟨rfl, rfl⟩
  | succ n ih =>
    intro q size k st
    match q, size with
    | [], _ => exact ⟨rfl, rfl⟩
    | _ :: _, 0 => exact ⟨rfl, rfl⟩
    | (x, y) :: q', size' + 1 =>
      unfold lakeFill
      split
      · exact ⟨(ih _ _ _ _).1, (ih _ _ _ _).2⟩
      · exact ⟨(ih _ _ _ _).1, (ih _ _ _ _).2⟩

theorem dims_forestFill (rng : Rng) (i : ℕ) :
    ∀ (fuel : ℕ) (q : List (ℤ × ℤ)) (size k : ℕ) (st : SimState),
      (forestFill rng i fuel q size k st).W = st.W ∧
      (forestFill rng i fuel q size k st).H = st.H := by
  intro fuel
  induction fuel with
  | zero => intro q size k st; exact ⟨rfl, rfl⟩
  | succ n ih =>
    intro q size k st
    match q, size with
    | [], _ => exact ⟨rfl, rfl⟩
    | _ :: _, 0 => exact ⟨rfl, rfl⟩
    | (x, y) :: q', size' + 1 =>
      unfold forestFill
      split
      · exact ⟨(ih _ _ _ _).1, (ih _ _ _ _).2⟩
      · exact ⟨(ih _ _ _ _).1, (ih _ _ _ _).2⟩

theorem dims_generateTerrain (rng : Rng) (st : SimState) :
    (generateTerrain rng st).W = st.W ∧ (generateTerrain rng st).H = st.H := by
  unfold generateTerrain
  refine foldl_pres_mem (fun s => s.W = st.W ∧ s.H = st.H) _ _ (fun s i _ hs => ?_) _ ?_
  · unfold genFarm
    refine foldl_pres_mem (fun s' => s'.W = st.W ∧ s'.H = st.H) _ _ (fun s' o _ hs' => ?_) _ hs
    split
    · exact hs'
    · exact hs'
  · refine foldl_pres_mem (fun s => s.W = st.W ∧ s.H = st.H) _ _ (fun s i _ hs => ?_) _ ?_
    · unfold genForest
      exact ⟨(dims_forestFill rng i _ _ _ _ _).1.trans hs.1,
        (dims_forestFill rng i _ _ _ _ _).2.trans hs.2⟩
    · refine foldl_pres_mem (fun s => s.W = st.W ∧ s.H = st.H) _ _ (fun s i _ hs => ?_) _
        ⟨rfl, rfl⟩
      unfold genWaterBody
      dsimp only
      split
      · exact ⟨(dims_riverWalk rng i _ _ _ _ _ _).1.trans hs.1,
          (dims_riverWalk rng i _ _ _ _ _ _).2.trans hs.2⟩
      · exact ⟨(dims_lakeFill rng i _ _ _ _ _).1.trans hs.1,
          (dims_lakeFill rng i _ _ _ _ _).2.trans hs.2⟩

/-! ## Invariant establishment at initialisation -/

theorem SimInv_generateInitialRoads {rng : Rng} {st : SimState}
    (hW : 0 < st.W) (hH : 0 < st.H)
    (hsp : ∀ i, 0 < (rng.carInit i).speed ∧ (rng.carInit i).speed < 1)
    (h : SimInv st) : SimInv (generateInitialRoads rng st) := by
  unfold generateInitialRoads
  dsimp only
  refine foldl_pres_mem SimInv _ _ (fun s i _ hs => SimInv_addRandomCar (hsp i) hs) _ ?_
  refine foldl_pres_mem SimInv _ _ (fun s i _ hs => SimInv_branchWalk _ _ _ _ hs) _ ?_
  have harterial1 := foldl_pres_mem (fun s => SimInv s ∧ s.W = st.W ∧ s.H = st.H)
    (fun s (x : ℕ) => if s.grid (x : ℤ) ((s.H / 2 : ℕ) : ℤ) = EMPTY
      then setRoad s (x : ℤ) ((s.H / 2 : ℕ) : ℤ) else s)
    (List.range st.W) ?_ st ⟨h, rfl, rfl⟩
  · have harterial2 := foldl_pres_mem (fun s => SimInv s ∧ s.W = st.W ∧ s.H = st.H)
      (fun s (y : ℕ) => if s.grid ((s.W / 2 : ℕ) : ℤ) (y : ℤ) = EMPTY
        then setRoad s ((s.W / 2 : ℕ) : ℤ) (y : ℤ) else s)
      (List.range st.H) ?_ _ harterial1
    · exact harterial2.1
    · intro s y hy hs
      obtain ⟨hsi, hsW, hsH⟩ := hs
      dsimp only
      split
      · rename_i hguard
        refine ⟨SimInv_setRoad hsi ?_ (Or.inl hguard), by rw [setRoad_W]; exact hsW,
          by rw [setRoad_H]; exact hsH⟩
        have hy' : y < st.H := List.mem_range.mp hy
        have hdiv : s.W / 2 < s.W := Nat.div_lt_self (hsW ▸ hW) (by omega)
        refine ⟨by positivity, ?_, by positivity, ?_⟩
        · exact_mod_cast hdiv
        · have : y < s.H := by omega
          exact_mod_cast this
      · exact ⟨hsi, hsW, hsH⟩
  · intro s x hx hs
    obtain ⟨hsi, hsW, hsH⟩ := hs
    dsimp only
    split
    · rename_i hguard
      refine ⟨SimInv_setRoad hsi ?_ (Or.inl hguard), by rw [setRoad_W]; exact hsW,
        by rw [setRoad_H]; exact hsH⟩
      have hx' : x < st.W := List.mem_range.mp hx
      have hdiv : s.H / 2 < s.H := Nat.div_lt_self (hsH ▸ hH) (by omega)
      refine ⟨by positivity, ?_, by positivity, ?_⟩
      · have : x < s.W := by omega
        exact_mod_cast this
      · exact_mod_cast hdiv
    · exact ⟨hsi, hsW, hsH⟩

theorem SimInv_initializeGrid (W H : ℕ) (rng : Rng) (hW : 0 < W) (hH : 0 < H)
    (hrv : rng.Valid) : SimInv (initializeGrid W H rng) := by
  unfold initializeGrid
  dsimp only
  have h0 : SimInv (SimState.mk W H (fun _ _ => EMPTY) (fun _ _ => initialBuilding)
      [] [] [] 0) := by
    refine ⟨⟨?_, ?_⟩, ?_, ?_, ?_⟩
    · intro p hp
      simp at hp
    · intro a b _ hg
      cases hg
    · intro p hp
      simp at hp
    · intro c hc
      simp at hc
    · intro a b
      simp [initialBuilding]
  have hter := @SimInv_generateTerrain rng _ h0
  have hdims := dims_generateTerrain rng (SimState.mk W H (fun _ _ => EMPTY)
    (fun _ _ => initialBuilding) [] [] [] 0)
  refine SimInv_generateInitialRoads ?_ ?_ ?_ hter
  · rw [hdims.1]
    exact hW
  · rw [hdims.2]
    exact hH
  · intro i
    exact speed_bounds_of_range (hrv.2.2.1 i).1 (hrv.2.2.1 i).2

/-- Every reachable state satisfies the master invariant. -/
theorem Reachable_SimInv {st : SimState} (h : Reachable st) : SimInv st := by
  induction h with
  | init W H rng hW hH hrv => exact SimInv_initializeGrid W H rng (by omega) (by omega) hrv
  | step rng st hrv _ ih => exact SimInv_simulationStep hrv ih

/-! ## What each phase leaves unchanged -/

theorem addRandomCar_grid (d : CarDraw) (st : SimState) :
    (addRandomCar d st).grid = st.grid := by
  unfold addRandomCar
  split <;> rfl

theorem addRandomCar_roads (d : CarDraw) (st : SimState) :
    (addRandomCar d st).roads = st.roads := by
  unfold addRandomCar
  split <;> rfl

theorem addRandomCar_water (d : CarDraw) (st : SimState) :
    (addRandomCar d st).waterCells = st.waterCells := by
  unfold addRandomCar
  split <;> rfl

theorem addRandomCar_buildings (d : CarDraw) (st : SimState) :
    (addRandomCar d st).buildings = st.buildings := by
  unfold addRandomCar
  split <;> rfl

theorem addRandomCar_step (d : CarDraw) (st : SimState) :
    (addRandomCar d st).currentStep = st.currentStep := by
  unfold addRandomCar
  split <;> rfl

theorem updateCars_grid (rng : Rng) (st : SimState) :
    (updateCars rng st).grid = st.grid := by
  unfold updateCars
  dsimp only
  split
  · rfl
  · split
    · rw [addRandomCar_grid]
    · rfl

theorem updateCars_roads (rng : Rng) (st : SimState) :
    (updateCars rng st).roads = st.roads := by
  unfold updateCars
  dsimp only
  split
  · rfl
  · split
    · rw [addRandomCar_roads]
    · rfl

theorem updateCars_water (rng : Rng) (st : SimState) :
    (updateCars rng st).waterCells = st.waterCells := by
  unfold updateCars
  dsimp only
  split
  · rfl
  · split
    · rw [addRandomCar_water]
    · rfl

theorem updateCars_buildings (rng : Rng) (st : SimState) :
    (updateCars rng st).buildings = st.buildings := by
  unfold updateCars
  dsimp only
  split
  · rfl
  · split
    · rw [addRandomCar_buildings]
    · rfl

theorem updateCars_step (rng : Rng) (st : SimState) :
    (updateCars rng st).currentStep = st.currentStep := by
  unfold updateCars
  dsimp only
  split
  · rfl
  · split
    · rw [addRandomCar_step]
    · rfl

theorem updateCars_W (rng : Rng) (st : SimState) : (updateCars rng st).W = st.W := by
  unfold updateCars
  dsimp only
  split
  · rfl
  · split
    · unfold addRandomCar
      split <;> rfl
    · rfl

theorem updateCars_H (rng : Rng) (st : SimState) : (updateCars rng st).H = st.H := by
  unfold updateCars
  dsimp only
  split
  · rfl
  · split
    · unfold addRandomCar
      split <;> rfl
    · rfl

theorem placeBuildings_roads (rng : Rng) :
    ∀ (l : List (ℤ × ℤ)) (i : ℕ) (st : SimState),
      (placeBuildings rng i st l).roads = st.roads := by
  intro l
  induction l with
  | nil => intro i st; rfl
  | cons p rest ih =>
    intro i st
    unfold placeBuildings
    rw [ih, placeOne_roads]

theorem placeBuildings_cars (rng : Rng) :
    ∀ (l : List (ℤ × ℤ)) (i : ℕ) (st : SimState),
      (placeBuildings rng i st l).cars = st.cars := by
  intro l
  induction l with
  | nil => intro i st; rfl
  | cons p rest ih =>
    intro i st
    unfold placeBuildings
    rw [ih, placeOne_cars]

theorem placeBuildings_water (rng : Rng) :
    ∀ (l : List (ℤ × ℤ)) (i : ℕ) (st : SimState),
      (placeBuildings rng i st l).waterCells = st.waterCells := by
  intro l
  induction l with
  | nil => intro i st; rfl
  | cons p rest ih =>
    intro i st
    unfold placeBuildings
    rw [ih, placeOne_water]

theorem placeBuildings_W (rng : Rng) :
    ∀ (l : List (ℤ × ℤ)) (i : ℕ) (st : SimState),
      (placeBuildings rng i st l).W = st.W := by
  intro l
  induction l with
  | nil => intro i st; rfl
  | cons p rest ih =>
    intro i st
    unfold placeBuildings
    rw [ih, placeOne_W]

theorem placeBuildings_H (rng : Rng) :
    ∀ (l : List (ℤ × ℤ)) (i : ℕ) (st : SimState),
      (placeBuildings rng i st l).H = st.H := by
  intro l
  induction l with
  | nil => intro i st; rfl
  | cons p rest ih =>
    intro i st
    unfold placeBuildings
    rw [ih, placeOne_H]

theorem placeBuildings_step (rng : Rng) :
    ∀ (l : List (ℤ × ℤ)) (i : ℕ) (st : SimState),
      (placeBuildings rng i st l).currentStep = st.currentStep := by
  intro l
  induction l with
  | nil => intro i st; rfl
  | cons p rest ih =>
    intro i st
    unfold placeBuildings
    rw [ih, placeOne_step]

theorem placeBuildings_grid_not_mem (rng : Rng) :
    ∀ (l : List (ℤ × ℤ)) (i : ℕ) (st : SimState) (a b : ℤ), (a, b) ∉ l →
      (placeBuildings rng i st l).grid a b = st.grid a b := by
  intro l
  induction l with
  | nil => intro i st a b _; rfl
  | cons p rest ih =>
    intro i st a b hnm
    unfold placeBuildings
    rw [ih _ _ _ _ (fun hmem => hnm (List.mem_cons_of_mem _ hmem)), placeOne_grid]
    apply updG_ne
    rintro ⟨rfl, rfl⟩
    exact hnm (by simp)

theorem placeBuildings_buildings_not_mem (rng : Rng) :
    ∀ (l : List (ℤ × ℤ)) (i : ℕ) (st : SimState) (a b : ℤ), (a, b) ∉ l →
      (placeBuildings rng i st l).buildings a b = st.buildings a b := by
  intro l
  induction l with
  | nil => intro i st a b _; rfl
  | cons p rest ih =>
    intro i st a b hnm
    unfold placeBuildings
    rw [ih _ _ _ _ (fun hmem => hnm (List.mem_cons_of_mem _ hmem))]
    show updB st.buildings p.1 p.2 _ a b = st.buildings a b
    apply updB_ne
    rintro ⟨rfl, rfl⟩
    exact hnm (by simp)

/-- The admission loop only writes building types onto cells of its list. -/
theorem placeBuildings_grid_cases (rng : Rng) :
    ∀ (l : List (ℤ × ℤ)) (i : ℕ) (st : SimState) (a b : ℤ),
      (placeBuildings rng i st l).grid a b = st.grid a b ∨
      ((a, b) ∈ l ∧
        ((placeBuildings rng i st l).grid a b = RESIDENTIAL ∨
         (placeBuildings rng i st l).grid a b = COMMERCIAL ∨
         (placeBuildings rng i st l).grid a b = INDUSTRIAL ∨
         (placeBuildings rng i st l).grid a b = PARK)) := by
  intro l
  induction l with
  | nil => intro i st a b; exact Or.inl rfl
  | cons p rest ih =>
    intro i st a b
    unfold placeBuildings
    rcases ih (i + 1) (placeOne rng i st p) a b with hu | ⟨hm, hv⟩
    · rw [hu, placeOne_grid]
      rcases updG_cases st.grid p.1 p.2
          (decideType st.W st.H st.grid p.1 p.2 st.currentStep (rng.typeR i % 101)) a b with
        hc | hc
      · by_cases hab : a = p.1 ∧ b = p.2
        · refine Or.inr ⟨?_, ?_⟩
          · obtain ⟨rfl, rfl⟩ := hab
            simp
          · rw [hc]
            exact decideType_cases _ _ _ _ _ _ _
        · rw [updG_ne _ _ _ _ hab]
          exact Or.inl rfl
      · rw [hc]
        exact Or.inl rfl
    · exact Or.inr ⟨List.mem_cons_of_mem _ hm, hv⟩

/-! ## Maturation facts and growth-level preservation -/

theorem matureOne_type (c : CellType) (b : Building) (dR tR : ℕ) :
    (matureOne c b dR tR).type = b.type := by
  unfold matureOne
  dsimp only
  split_ifs <;> rfl

theorem matureOne_age (c : CellType) (b : Building) (dR tR : ℕ) :
    (matureOne c b dR tR).age = b.age + 1 := by
  unfold matureOne
  dsimp only
  split_ifs <;> rfl

theorem matureOne_density_mono (c : CellType) (b : Building) (dR tR : ℕ) :
    b.density ≤ (matureOne c b dR tR).density := by
  unfold matureOne
  dsimp only
  split_ifs <;> simp

theorem matureAll_buildings (rng : Rng) (st : SimState) (x y : ℤ) :
    (matureAll rng st).buildings x y =
      if isValidCell st.W st.H x y ∧ st.grid x y ≠ EMPTY ∧ st.grid x y ≠ ROAD ∧
          st.grid x y ≠ WATER
      then matureOne (st.grid x y) (st.buildings x y) (rng.densR x y) (rng.treeAgeR x y)
      else st.buildings x y := rfl

theorem growCity_eq (rng : Rng) (st : SimState) :
    growCity rng st =
      if st.currentStep % 10 = 0 then extendRoads rng (growthCore rng st)
      else growthCore rng st := rfl

theorem growthCore_roads (rng : Rng) (st : SimState) :
    (growthCore rng st).roads = st.roads := by
  unfold growthCore
  rw [matureAll_roads, placeBuildings_roads]

theorem growthCore_cars (rng : Rng) (st : SimState) :
    (growthCore rng st).cars = st.cars := by
  unfold growthCore
  rw [matureAll_cars, placeBuildings_cars]

theorem growthCore_water (rng : Rng) (st : SimState) :
    (growthCore rng st).waterCells = st.waterCells := by
  unfold growthCore
  rw [matureAll_water, placeBuildings_water]

theorem growthCore_step (rng : Rng) (st : SimState) :
    (growthCore rng st).currentStep = st.currentStep := by
  unfold growthCore
  rw [matureAll_step, placeBuildings_step]

theorem growCity_cars (rng : Rng) (st : SimState) : (growCity rng st).cars = st.cars := by
  rw [growCity_eq]
  split
  · unfold extendRoads
    rw [addRoadCells_cars, growthCore_cars]
  · exact growthCore_cars rng st

theorem growCity_water (rng : Rng) (st : SimState) :
    (growCity rng st).waterCells = st.waterCells := by
  rw [growCity_eq]
  split
  · unfold extendRoads
    rw [addRoadCells_water, growthCore_water]
  · exact growthCore_water rng st

theorem growCity_step (rng : Rng) (st : SimState) :
    (growCity rng st).currentStep = st.currentStep := by
  rw [growCity_eq]
  split
  · unfold extendRoads
    rw [addRoadCells_step, growthCore_step]
  · exact growthCore_step rng st

/-- Every cell the admission loop of `growCity` writes was empty at the start
of the invocation (as a contrapositive: a non-empty cell keeps its grid
value through the whole invocation). -/
theorem growCity_grid_preserve {rng : Rng} {st : SimState} (hrv : rng.Valid)
    {x y : ℤ} (h : st.grid x y ≠ EMPTY) :
    (growCity rng st).grid x y = st.grid x y := by
  have hnot : ((x, y) : ℤ × ℤ) ∉ (rng.shuffleSpots (buildingSpotsOf st)).take
      (min (1 + st.currentStep / 50) (buildingSpotsOf st).length) := by
    intro hmem
    have hq2 : ((x, y) : ℤ × ℤ) ∈ buildingSpotsOf st :=
      (hrv.1 (buildingSpotsOf st)).mem_iff.mp (List.take_subset _ _ hmem)
    exact h (mem_buildingSpotsOf hq2).2
  have hcore : (growthCore rng st).grid x y = st.grid x y := by
    unfold growthCore
    rw [matureAll_grid, placeBuildings_grid_not_mem rng _ _ _ _ _ hnot]
  rw [growCity_eq]
  split
  · unfold extendRoads
    dsimp only
    rw [addRoadCells_grid]
    split
    · rename_i hmem
      exfalso
      have hq2 : ((x, y) : ℤ × ℤ) ∈ roadSpotsOf (growthCore rng st) :=
        (hrv.2.1 _).mem_iff.mp (List.take_subset _ _ hmem)
      have he := (mem_roadSpotsOf hq2).2
      rw [hcore] at he
      exact h he
    · exact hcore
  · exact hcore

/-- A non-empty cell's building record goes through `growCity` only via the
maturation pass: the type is kept, age and density do not decrease. -/
theorem growCity_buildings_preserve {rng : Rng} {st : SimState} (hrv : rng.Valid)
    {x y : ℤ} (h : st.grid x y ≠ EMPTY) :
    ((growCity rng st).buildings x y).type = (st.buildings x y).type ∧
    (st.buildings x y).age ≤ ((growCity rng st).buildings x y).age ∧
    (st.buildings x y).density ≤ ((growCity rng st).buildings x y).density := by
  have hnot : ((x, y) : ℤ × ℤ) ∉ (rng.shuffleSpots (buildingSpotsOf st)).take
      (min (1 + st.currentStep / 50) (buildingSpotsOf st).length) := by
    intro hmem
    have hq2 : ((x, y) : ℤ × ℤ) ∈ buildingSpotsOf st :=
      (hrv.1 (buildingSpotsOf st)).mem_iff.mp (List.take_subset _ _ hmem)
    exact h (mem_buildingSpotsOf hq2).2
  have hb1 : (placeBuildings rng 0 st ((rng.shuffleSpots (buildingSpotsOf st)).take
      (min (1 + st.currentStep / 50) (buildingSpotsOf st).length))).buildings x y =
      st.buildings x y :=
    placeBuildings_buildings_not_mem rng _ _ _ _ _ hnot
  have hcore : ((growthCore rng st).buildings x y).type = (st.buildings x y).type ∧
      (st.buildings x y).age ≤ ((growthCore rng st).buildings x y).age ∧
      (st.buildings x y).density ≤ ((growthCore rng st).buildings x y).density := by
    unfold growthCore
    rw [matureAll_buildings, hb1]
    split
    · exact ⟨matureOne_type _ _ _ _, by rw [matureOne_age]; omega, matureOne_density_mono _ _ _ _⟩
    · exact ⟨rfl, le_refl _, le_refl _⟩
  rw [growCity_eq]
  split
  · unfold extendRoads
    dsimp only
    rw [addRoadCells_buildings]
    exact hcore
  · exact hcore

theorem simulationStep_water (rng : Rng) (st : SimState) :
    (simulationStep rng st).waterCells = st.waterCells := by
  unfold simulationStep
  dsimp only
  split
  · show (growCity rng (updateCars rng st)).waterCells = st.waterCells
    rw [growCity_water, updateCars_water]
  · exact updateCars_water rng st

/-- A non-empty cell's grid tag survives a whole simulation step unchanged. -/
theorem simulationStep_grid_preserve {rng : Rng} {st : SimState} (hrv : rng.Valid)
    {x y : ℤ} (h : st.grid x y ≠ EMPTY) :
    (simulationStep rng st).grid x y = st.grid x y := by
  unfold simulationStep
  dsimp only
  have hcars := updateCars_grid rng st
  split
  · show (growCity rng (updateCars rng st)).grid x y = st.grid x y
    rw [growCity_grid_preserve hrv (by rw [hcars]; exact h), hcars]
  · exact congrFun (congrFun hcars x) y

/-- A non-empty cell's building record through a whole simulation step:
type kept, age and density non-decreasing. -/
theorem simulationStep_buildings_preserve {rng : Rng} {st : SimState} (hrv : rng.Valid)
    {x y : ℤ} (h : st.grid x y ≠ EMPTY) :
    ((simulationStep rng st).buildings x y).type = (st.buildings x y).type ∧
    (st.buildings x y).age ≤ ((simulationStep rng st).buildings x y).age ∧
    (st.buildings x y).density ≤ ((simulationStep rng st).buildings x y).density := by
  unfold simulationStep
  dsimp only
  have hcars := updateCars_buildings rng st
  have hgrid := updateCars_grid rng st
  split
  · show ((growCity rng (updateCars rng st)).buildings x y).type = _ ∧ _ ∧ _
    have := @growCity_buildings_preserve rng (updateCars rng st) hrv
      x y (by rw [hgrid]; exact h)
    rw [hcars] at this
    exact this
  · rw [hcars]
    exact ⟨rfl, le_refl _, le_refl _⟩

/-! ## Claim theorems -/

theorem rngW_valid : rngW.Valid := by
  refine ⟨fun l => List.Perm.refl l, fun l => List.Perm.refl l, fun i => ⟨?_, ?_⟩, ?_, ?_⟩
  · show Rat.divInt 1 20 ≤ Rat.divInt 1 10
    decide
  · show Rat.divInt 1 10 ≤ Rat.divInt 1 5
    decide
  · show Rat.divInt 1 20 ≤ Rat.divInt 1 10
    decide
  · show Rat.divInt 1 10 ≤ Rat.divInt 1 5
    decide

/-- C1: in every reachable simulation state, every coordinate in the road
sequence has grid tag `ROAD`, and every in-bounds grid cell tagged `ROAD`
appears in the road sequence. -/
theorem C1_road_list_grid_agree : ∀ st, Reachable st →
    (∀ p ∈ st.roads, st.grid p.1 p.2 = ROAD) ∧
    (∀ x y : ℤ, isValidCell st.W st.H x y → st.grid x y = ROAD → (x, y) ∈ st.roads) := by
  intro st h
  obtain ⟨⟨hr1, hr2⟩, _, _, _⟩ := Reachable_SimInv h
  exact ⟨fun p hp => (hr1 p hp).2, hr2⟩

set_option maxRecDepth 200000 in
theorem C1_road_list_grid_agree_witness :
    (initializeGrid 10 10 rngW).grid 0 5 = ROAD ∧
    ((0 : ℤ), (5 : ℤ)) ∈ (initializeGrid 10 10 rngW).roads := by
  have h := C1_road_list_grid_agree (initializeGrid 10 10 rngW)
    (Reachable.init 10 10 rngW (le_refl 10) (le_refl 10) rngW_valid)
  exact ⟨h.1 ((0 : ℤ), (5 : ℤ)) (by decide), h.2 0 5 (by decide) (by decide)⟩

/-- C9: every coordinate in the water-cell sequence of a reachable state has
grid tag `WATER` (so nothing ever reverts a recorded water cell), and a
simulation step never mutates the water-cell sequence itself. -/
theorem C9_water_append_only :
    (∀ st, Reachable st → ∀ p ∈ st.waterCells, st.grid p.1 p.2 = WATER) ∧
    (∀ (rng : Rng) (st : SimState), (simulationStep rng st).waterCells = st.waterCells) := by
  constructor
  · intro st h p hp
    obtain ⟨_, hw, _, _⟩ := Reachable_SimInv h
    exact (hw p hp).2
  · exact simulationStep_water

set_option maxRecDepth 200000 in
theorem C9_water_append_only_witness :
    (initializeGrid 10 10 rngW).grid 5 5 = WATER ∧
    (simulationStep rngW stC3).waterCells = stC3.waterCells := by
  refine ⟨C9_water_append_only.1 (initializeGrid 10 10 rngW)
    (Reachable.init 10 10 rngW (le_refl 10) (le_refl 10) rngW_valid)
    ((5 : ℤ), (5 : ℤ)) (by decide), C9_water_append_only.2 rngW stC3⟩

/-- C10: in every reachable state, every car's truncated integer position is
an in-bounds grid cell tagged `ROAD`. -/
theorem C10_cars_on_roads : ∀ st, Reachable st → ∀ c ∈ st.cars,
    isValidCell st.W st.H (truncQ c.x) (truncQ c.y) ∧
    st.grid (truncQ c.x) (truncQ c.y) = ROAD := by
  intro st h c hc
  obtain ⟨_, _, hcars, _⟩ := Reachable_SimInv h
  exact ⟨(hcars c hc).1, (hcars c hc).2.1⟩

set_option maxRecDepth 200000 in
theorem C10_cars_on_roads_witness :
    isValidCell (initializeGrid 10 10 rngW).W (initializeGrid 10 10 rngW).H
      (truncQ carW.x) (truncQ carW.y) ∧
    (initializeGrid 10 10 rngW).grid (truncQ carW.x) (truncQ carW.y) = ROAD :=
  C10_cars_on_roads (initializeGrid 10 10 rngW)
    (Reachable.init 10 10 rngW (le_refl 10) (le_refl 10) rngW_valid)
    carW (by decide)

/-- C6: once a cell is non-empty, a simulation step never decreases its
building record's age or density; and in every reachable state every
building record's density is at most 3. -/
theorem C6_building_monotone :
    (∀ (rng : Rng) (st : SimState) (x y : ℤ), rng.Valid → st.grid x y ≠ EMPTY →
      (st.buildings x y).age ≤ ((simulationStep rng st).buildings x y).age ∧
      (st.buildings x y).density ≤ ((simulationStep rng st).buildings x y).density) ∧
    (∀ st, Reachable st → ∀ x y : ℤ, (st.buildings x y).density ≤ 3) := by
  constructor
  · intro rng st x y hrv h
    have hp := simulationStep_buildings_preserve hrv h
    exact ⟨hp.2.1, hp.2.2⟩
  · intro st h x y
    obtain ⟨_, _, _, hd⟩ := Reachable_SimInv h
    exact hd x y

set_option maxRecDepth 200000 in
theorem C6_building_monotone_witness :
    ((stC3.buildings 2 2).age ≤ ((simulationStep rngW stC3).buildings 2 2).age ∧
     (stC3.buildings 2 2).density ≤ ((simulationStep rngW stC3).buildings 2 2).density) ∧
    ((initializeGrid 10 10 rngW).buildings 0 0).density ≤ 3 :=
  ⟨C6_building_monotone.1 rngW stC3 2 2 rngW_valid (by decide),
   C6_building_monotone.2 (initializeGrid 10 10 rngW)
     (Reachable.init 10 10 rngW (le_refl 10) (le_refl 10) rngW_valid) 0 0⟩

/-- C4: the type the admission loop writes at an admitted candidate cell is
exactly the specification's rule: one percentile roll `r`, base type
(`r<60` residential, `r<85` commercial, else industrial), then the water,
park/forest and late-park overrides in order. -/
theorem C4_building_type_rule :
    (∀ (W H : ℕ) (g : ℤ → ℤ → CellType) (x y : ℤ) (step r : ℕ),
      decideType W H g x y step r = specBuildingType W H g x y step r) ∧
    (∀ (rng : Rng) (i : ℕ) (st : SimState) (p : ℤ × ℤ),
      (placeOne rng i st p).grid p.1 p.2 =
        specBuildingType st.W st.H st.grid p.1 p.2 st.currentStep (rng.typeR i % 101)) := by
  have heq : ∀ (W H : ℕ) (g : ℤ → ℤ → CellType) (x y : ℤ) (step r : ℕ),
      decideType W H g x y step r = specBuildingType W H g x y step r := by
    intro W H g x y step r
    rfl
  refine ⟨heq, fun rng i st p => ?_⟩
  rw [placeOne_grid, updG_self, heq]

set_option maxRecDepth 1000000 in
/-- C3 counterexample: with an empty road list but a forest cell on the
grid, a growth-engine invocation mutates that cell's building record (its
maturation pass ages it), so the invocation is not a state no-op. -/
theorem C3_counterexample :
    stC3.roads = [] ∧ (growCity rngW stC3).buildings 2 2 ≠ stC3.buildings 2 2 := by
  constructor
  · rfl
  · decide

/-- C3 (amended): with an empty road list (and, for the road-extension part,
no road-tagged cell), a traffic update and a spawn are exact no-ops, and a
growth invocation changes neither the grid, the road list, the cars, the
water list nor the step counter — but its maturation pass may still mutate
building records, so the invocation is not a complete no-op. -/
theorem C3_empty_roads_noop : ∀ (rng : Rng) (d : CarDraw) (st : SimState),
    st.roads = [] → (∀ x y : ℤ, st.grid x y ≠ ROAD) →
    updateCars rng st = st ∧ addRandomCar d st = st ∧
    (growCity rng st).grid = st.grid ∧ (growCity rng st).roads = [] ∧
    (growCity rng st).cars = st.cars ∧ (growCity rng st).waterCells = st.waterCells ∧
    (growCity rng st).currentStep = st.currentStep := by
  intro rng d st hroads hnr
  have hspots : buildingSpotsOf st = [] := by
    unfold buildingSpotsOf
    rw [hroads]
    rfl
  have htake : ∀ (f : List (ℤ × ℤ) → List (ℤ × ℤ)),
      (f (buildingSpotsOf st)).take
        (min (1 + st.currentStep / 50) (buildingSpotsOf st).length) = [] := by
    intro f
    rw [hspots]
    simp
  have hroadspots : ∀ st' : SimState, (∀ x y : ℤ, st'.grid x y ≠ ROAD) →
      roadSpotsOf st' = [] := by
    intro st' hnr'
    unfold roadSpotsOf
    rw [List.flatMap_eq_nil_iff]
    intro x _
    rw [List.flatMap_eq_nil_iff]
    intro y _
    split
    · rw [List.filterMap_eq_nil_iff]
      intro d' _
      dsimp only
      rw [if_neg]
      rintro ⟨_, _, d2, _, _, hroad⟩
      exact hnr' _ _ hroad
    · rfl
  have hcore : growthCore rng st = matureAll rng st := by
    unfold growthCore
    rw [htake]
    rfl
  refine ⟨?_, ?_, ?_, ?_, ?_, ?_, ?_⟩
  · unfold updateCars
    rw [if_pos hroads]
  · unfold addRandomCar
    rw [if_pos hroads]
  · rw [growCity_eq]
    split
    · unfold extendRoads
      rw [hroadspots _ (by rw [hcore, matureAll_grid]; exact hnr)]
      simp only [List.length_nil, Nat.min_zero, List.take_zero]
      show (addRoadCells (growthCore rng st) []).grid = st.grid
      rw [hcore]
      rfl
    · rw [hcore, matureAll_grid]
  · rw [growCity_eq]
    split
    · unfold extendRoads
      rw [hroadspots _ (by rw [hcore, matureAll_grid]; exact hnr)]
      simp only [List.length_nil, Nat.min_zero, List.take_zero]
      show (addRoadCells (growthCore rng st) []).roads = []
      rw [hcore]
      show st.roads = []
      exact hroads
    · rw [hcore, matureAll_roads]
      exact hroads
  · rw [growCity_cars]
  · rw [growCity_water]
  · rw [growCity_step]

set_option maxRecDepth 1000000 in
theorem C3_empty_roads_noop_witness :
    updateCars rngW stC3 = stC3 ∧ addRandomCar rngW.spawnDraw stC3 = stC3 ∧
    (growCity rngW stC3).grid = stC3.grid ∧ (growCity rngW stC3).roads = [] ∧
    (growCity rngW stC3).cars = stC3.cars ∧
    (growCity rngW stC3).waterCells = stC3.waterCells ∧
    (growCity rngW stC3).currentStep = stC3.currentStep :=
  C3_empty_roads_noop rngW rngW.spawnDraw stC3 rfl (by
    intro x y
    show (if x = 2 ∧ y = 2 then FOREST else EMPTY) ≠ ROAD
    split <;> simp)

/-- C5 (amended): across whole simulation steps, a cell whose grid tag is
non-empty keeps both its grid tag and its building-record type (in
particular nothing ever reverts to `EMPTY` and a placed building is never
re-placed in a later tick); the original claim's "a cell cannot be placed
twice" fails only *within* one growth invocation, where a candidate
adjacent to two roads is admitted twice (see the counterexample). -/
theorem C5_no_retype : ∀ (rng : Rng) (st : SimState) (x y : ℤ), rng.Valid →
    st.grid x y ≠ EMPTY →
    (simulationStep rng st).grid x y = st.grid x y ∧
    ((simulationStep rng st).buildings x y).type = (st.buildings x y).type := by
  intro rng st x y hrv h
  exact ⟨simulationStep_grid_preserve hrv h, (simulationStep_buildings_preserve hrv h).1⟩

set_option maxRecDepth 1000000 in
theorem C5_no_retype_witness :
    (simulationStep rngW stC3).grid 2 2 = stC3.grid 2 2 ∧
    ((simulationStep rngW stC3).buildings 2 2).type = (stC3.buildings 2 2).type :=
  C5_no_retype rngW stC3 2 2 rngW_valid (by decide)

set_option maxRecDepth 1000000 in
/-- C5 counterexample: at step 50 the cell (1,1), adjacent to the two road
cells (0,1) and (1,0), occurs twice in the candidate list; a permutation
putting both copies first makes the admission loop place it twice, first as
residential and then re-rolled as commercial: the cell's building type *is*
reassigned to a different type within one growth invocation. -/
theorem C5_counterexample :
    ((rngC5.shuffleSpots (buildingSpotsOf stC5)).take
        (min (1 + stC5.currentStep / 50) (buildingSpotsOf stC5).length)).count
      ((1 : ℤ), (1 : ℤ)) = 2 ∧
    (placeBuildings rngC5 0 stC5
        ((rngC5.shuffleSpots (buildingSpotsOf stC5)).take 1)).grid 1 1 = RESIDENTIAL ∧
    (growCity rngC5 stC5).grid 1 1 = COMMERCIAL := by
  refine ⟨by decide, by decide, by decide⟩

set_option maxRecDepth 1000000 in
/-- C2 counterexample: at step 10 the road-extension scan would add a road
(the candidate list is non-empty and the extension, if invoked, appends one),
yet the simulation step leaves the road list unchanged, because the growth
engine — and with it the extension — only runs when `step % 3 == 0`. -/
theorem C2_counterexample :
    stC2.currentStep % 10 = 0 ∧
    (simulationStep rngW stC2).roads = stC2.roads ∧
    roadSpotsOf stC2 ≠ [] ∧
    (extendRoads rngW stC2).roads ≠ stC2.roads := by
  refine ⟨by decide, by decide, by decide, by decide⟩

/-- C2 (amended): new roads can be added only on steps with
`step % 3 == 0 ∧ step % 10 == 0` (i.e. every 30th tick); on those steps the
road-extension routine is invoked on the post-placement state, and on all
other steps the road sequence is unchanged. -/
theorem C2_road_extension_cadence : ∀ (rng : Rng) (st : SimState),
    (simulationStep rng st).roads =
      if st.currentStep % 3 = 0 ∧ st.currentStep % 10 = 0
      then (extendRoads rng (growthCore rng (updateCars rng st))).roads
      else st.roads := by
  intro rng st
  unfold simulationStep
  dsimp only
  have hstep := updateCars_step rng st
  have hroads := updateCars_roads rng st
  show (if (updateCars rng st).currentStep % 3 = 0 then growCity rng (updateCars rng st)
        else updateCars rng st).roads = _
  rw [hstep]
  by_cases h3 : st.currentStep % 3 = 0
  · rw [if_pos h3, growCity_eq, hstep]
    by_cases h10 : st.currentStep % 10 = 0
    · rw [if_pos h10, if_pos ⟨h3, h10⟩]
    · rw [if_neg h10, if_neg (fun hc => h10 hc.2), growthCore_roads, hroads]
  · rw [if_neg h3, if_neg (fun hc => h3 hc.1), hroads]

/-- C7: when a car's straight-ahead target integer cell is out of bounds or
not a road, `moveCar` either redirects to one of the non-reverse candidate
directions whose target (from the pre-move position) is an in-bounds road —
recomputing the fractional move from the pre-move position — or, with no
such direction, teleports the car to an entry of the road sequence with a
direction in `0..3`, making no move this tick. -/
theorem C7_blocked_car_redirect : ∀ (W H : ℕ) (g : ℤ → ℤ → CellType)
    (roads : List (ℤ × ℤ)) (ch : CarChoice) (c : Car),
    ¬(isValidCell W H (truncQ (c.x + (dx c.direction : ℚ) * c.speed))
        (truncQ (c.y + (dy c.direction : ℚ) * c.speed)) ∧
      g (truncQ (c.x + (dx c.direction : ℚ) * c.speed))
        (truncQ (c.y + (dy c.direction : ℚ) * c.speed)) = ROAD) →
    (possibleDirs W H g c ≠ [] →
      (moveCar W H g roads ch c).direction ∈ possibleDirs W H g c ∧
      (moveCar W H g roads ch c).x =
        c.x + (dx (moveCar W H g roads ch c).direction : ℚ) * c.speed ∧
      (moveCar W H g roads ch c).y =
        c.y + (dy (moveCar W H g roads ch c).direction : ℚ) * c.speed ∧
      (moveCar W H g roads ch c).speed = c.speed) ∧
    (possibleDirs W H g c = [] → roads ≠ [] →
      ∃ i < roads.length,
        (moveCar W H g roads ch c).x = ((roads.getD i (0, 0)).1 : ℚ) ∧
        (moveCar W H g roads ch c).y = ((roads.getD i (0, 0)).2 : ℚ) ∧
        (moveCar W H g roads ch c).roadIndex = i ∧
        (moveCar W H g roads ch c).direction < 4) := by
  intro W H g roads ch c hblock
  unfold moveCar
  dsimp only
  rw [if_neg hblock]
  by_cases hpd : possibleDirs W H g c = []
  · rw [if_pos hpd]
    constructor
    · intro hne
      exact absurd hpd hne
    · intro _ hroads
      have hlen : 0 < roads.length := List.length_pos.mpr hroads
      exact ⟨ch.teleRoad % roads.length, Nat.mod_lt _ hlen, rfl, rfl, rfl,
        Nat.mod_lt _ (by omega)⟩
  · rw [if_neg hpd]
    constructor
    · intro _
      have hlen : 0 < (possibleDirs W H g c).length := List.length_pos.mpr hpd
      exact ⟨getD_mem _ _ _ (Nat.mod_lt _ hlen), rfl, rfl, rfl⟩
    · intro habs
      exact absurd habs hpd

set_option maxRecDepth 1000000 in
theorem C7_blocked_car_redirect_witness :
    (moveCar 10 10 stC7grid [(1, 1), (1, 2)] ⟨0, 0, 0⟩ carC7).direction ∈
      possibleDirs 10 10 stC7grid carC7 ∧
    (moveCar 10 10 stC7grid [(1, 1), (1, 2)] ⟨0, 0, 0⟩ carC7).x =
      carC7.x + (dx (moveCar 10 10 stC7grid [(1, 1), (1, 2)] ⟨0, 0, 0⟩ carC7).direction : ℚ) *
        carC7.speed ∧
    (moveCar 10 10 stC7grid [(1, 1), (1, 2)] ⟨0, 0, 0⟩ carC7).y =
      carC7.y + (dy (moveCar 10 10 stC7grid [(1, 1), (1, 2)] ⟨0, 0, 0⟩ carC7).direction : ℚ) *
        carC7.speed ∧
    (moveCar 10 10 stC7grid [(1, 1), (1, 2)] ⟨0, 0, 0⟩ carC7).speed = carC7.speed := by
  have hx : carC7.x + (dx carC7.direction : ℚ) * carC7.speed = Rat.divInt 9 10 := by
    norm_num [carC7, dx, Rat.divInt_eq_div]
  have hy : carC7.y + (dy carC7.direction : ℚ) * carC7.speed = ((1 : ℤ) : ℚ) := by
    norm_num [carC7, dy]
  have hblock : ¬(isValidCell 10 10 (truncQ (carC7.x + (dx carC7.direction : ℚ) * carC7.speed))
        (truncQ (carC7.y + (dy carC7.direction : ℚ) * carC7.speed)) ∧
      stC7grid (truncQ (carC7.x + (dx carC7.direction : ℚ) * carC7.speed))
        (truncQ (carC7.y + (dy carC7.direction : ℚ) * carC7.speed)) = ROAD) := by
    rw [hx, hy]
    intro hcon
    have := hcon.2
    rw [show truncQ (Rat.divInt 9 10) = 0 from by decide,
      show truncQ ((1 : ℤ) : ℚ) = 1 from by decide] at this
    exact absurd this (by decide)
  exact (C7_blocked_car_redirect 10 10 stC7grid [(1, 1), (1, 2)] ⟨0, 0, 0⟩ carC7 hblock).1
    (by decide)

/-! ## C8: the end-to-end growth scenario -/

/-- Any in-bounds coordinate pair occurs in the scan list `allCells`. -/
theorem mem_allCells {W H : ℕ} {p : ℤ × ℤ} (h1 : 0 ≤ p.1) (h2 : p.1 < (W : ℤ))
    (h3 : 0 ≤ p.2) (h4 : p.2 < (H : ℤ)) : p ∈ allCells W H := by
  unfold allCells
  rw [List.mem_flatMap]
  refine ⟨p.1.toNat, List.mem_range.mpr (by omega), ?_⟩
  rw [List.mem_map]
  refine ⟨p.2.toNat, List.mem_range.mpr (by omega), ?_⟩
  rw [Int.toNat_of_nonneg h1, Int.toNat_of_nonneg h3]

set_option maxRecDepth 1000000 in
/-- C8: on the 10×10 grid whose only non-empty cells form a single horizontal
road row at `y = 5`, one growth-engine invocation with step counter 0 places
exactly `min 1 candidateCount` new buildings, and every collected building
candidate is an empty cell 4-adjacent to a road cell. -/
theorem C8_growth_scenario (rng : Rng) (hrng : rng.Valid) :
    newBuildingCount stC8 (growCity rng stC8) = min 1 (buildingSpotsOf stC8).length ∧
    ∀ p ∈ buildingSpotsOf stC8,
      stC8.grid p.1 p.2 = EMPTY ∧
      ∃ d < 4, isValidCell stC8.W stC8.H (p.1 + dx d) (p.2 + dy d) ∧
        stC8.grid (p.1 + dx d) (p.2 + dy d) = ROAD := by
  have hlen : (buildingSpotsOf stC8).length = 20 := by decide
  refine ⟨?_, by decide⟩
  have hperm := hrng.1 (buildingSpotsOf stC8)
  have hne : rng.shuffleSpots (buildingSpotsOf stC8) ≠ [] := by
    intro h0
    have hl := hperm.length_eq
    rw [h0, hlen] at hl
    simp at hl
  obtain ⟨p0, tail, hsh⟩ := List.exists_cons_of_ne_nil hne
  have hp0spots : p0 ∈ buildingSpotsOf stC8 :=
    hperm.mem_iff.mp (by rw [hsh]; exact List.mem_cons_self _ _)
  obtain ⟨hp0valid, hp0empty⟩ := mem_buildingSpotsOf hp0spots
  have htake : (rng.shuffleSpots (buildingSpotsOf stC8)).take
      (min (1 + stC8.currentStep / 50) (buildingSpotsOf stC8).length) = [p0] := by
    rw [hsh, hlen]
    rfl
  have hcoreg : (growthCore rng stC8).grid =
      updG stC8.grid p0.1 p0.2 (decideType stC8.W stC8.H stC8.grid p0.1 p0.2
        stC8.currentStep (rng.typeR 0 % 101)) := by
    unfold growthCore
    rw [htake, matureAll_grid]
    rfl
  have ht4 := decideType_cases stC8.W stC8.H stC8.grid p0.1 p0.2 stC8.currentStep
      (rng.typeR 0 % 101)
  have htne : decideType stC8.W stC8.H stC8.grid p0.1 p0.2 stC8.currentStep
      (rng.typeR 0 % 101) ≠ EMPTY := by
    rcases ht4 with h | h | h | h <;> rw [h] <;> decide
  have hgc : growCity rng stC8 = extendRoads rng (growthCore rng stC8) := by
    rw [growCity_eq, if_pos (show stC8.currentStep % 10 = 0 by decide)]
  have hclaim : ∀ q ∈ (rng.shuffleRoads (roadSpotsOf (growthCore rng stC8))).take
      (min (1 + (growthCore rng stC8).currentStep / 100)
        (roadSpotsOf (growthCore rng stC8)).length),
      (growthCore rng stC8).grid q.1 q.2 = EMPTY := by
    intro q hq
    exact (mem_roadSpotsOf ((hrng.2.1 _).mem_iff.mp (List.take_subset _ _ hq))).2
  have hfing : ∀ a b : ℤ, (growCity rng stC8).grid a b =
      if (a, b) ∈ (rng.shuffleRoads (roadSpotsOf (growthCore rng stC8))).take
          (min (1 + (growthCore rng stC8).currentStep / 100)
            (roadSpotsOf (growthCore rng stC8)).length)
      then ROAD else (growthCore rng stC8).grid a b := by
    intro a b
    rw [hgc]
    unfold extendRoads
    dsimp only
    rw [addRoadCells_grid]
  obtain ⟨cl, hclmem, hclgrid⟩ : ∃ cl : List (ℤ × ℤ),
      (∀ q ∈ cl, (growthCore rng stC8).grid q.1 q.2 = EMPTY) ∧
      ∀ a b : ℤ, (growCity rng stC8).grid a b =
        if (a, b) ∈ cl then ROAD else (growthCore rng stC8).grid a b :=
    ⟨_, hclaim, hfing⟩
  rw [hcoreg] at hclmem hclgrid
  have hcongr : ∀ a : ℤ × ℤ,
      ((stC8.grid a.1 a.2 = EMPTY ∧
        ((growCity rng stC8).grid a.1 a.2 = RESIDENTIAL ∨
         (growCity rng stC8).grid a.1 a.2 = COMMERCIAL ∨
         (growCity rng stC8).grid a.1 a.2 = INDUSTRIAL ∨
         (growCity rng stC8).grid a.1 a.2 = PARK)) ↔ a = p0) := by
    intro a
    constructor
    · rintro ⟨hE, hT⟩
      rw [hclgrid a.1 a.2] at hT
      by_cases hm : ((a.1, a.2) : ℤ × ℤ) ∈ cl
      · rw [if_pos hm] at hT
        rcases hT with h | h | h | h <;> exact absurd h (by decide)
      · rw [if_neg hm] at hT
        by_cases hab : a.1 = p0.1 ∧ a.2 = p0.2
        · exact Prod.ext_iff.mpr hab
        · rw [updG_ne _ _ _ _ hab, hE] at hT
          rcases hT with h | h | h | h <;> exact absurd h (by decide)
    · intro h
      rw [h]
      refine ⟨hp0empty, ?_⟩
      have hnm : ((p0.1, p0.2) : ℤ × ℤ) ∉ cl := by
        intro hm
        have hE2 : updG stC8.grid p0.1 p0.2
            (decideType stC8.W stC8.H stC8.grid p0.1 p0.2 stC8.currentStep
              (rng.typeR 0 % 101)) p0.1 p0.2 = EMPTY := hclmem _ hm
        rw [updG_self] at hE2
        exact htne hE2
      rw [hclgrid p0.1 p0.2, if_neg hnm, updG_self]
      exact ht4
  have hfun : (fun p : ℤ × ℤ => decide (stC8.grid p.1 p.2 = EMPTY ∧
      ((growCity rng stC8).grid p.1 p.2 = RESIDENTIAL ∨
       (growCity rng stC8).grid p.1 p.2 = COMMERCIAL ∨
       (growCity rng stC8).grid p.1 p.2 = INDUSTRIAL ∨
       (growCity rng stC8).grid p.1 p.2 = PARK))) =
      fun x : ℤ × ℤ => decide (x = p0) := by
    funext a
    exact decide_eq_decide.mpr (hcongr a)
  unfold newBuildingCount
  rw [hlen, hfun, countP_eq_one_of_nodup (allCells stC8.W stC8.H) p0 (by decide)
    (mem_allCells hp0valid.1 hp0valid.2.1 hp0valid.2.2.1 hp0valid.2.2.2)]
  decide

set_option maxRecDepth 1000000 in
theorem C8_growth_scenario_witness :
    newBuildingCount stC8 (growCity rngW stC8) = min 1 (buildingSpotsOf stC8).length ∧
    ∀ p ∈ buildingSpotsOf stC8,
      stC8.grid p.1 p.2 = EMPTY ∧
      ∃ d < 4, isValidCell stC8.W stC8.H (p.1 + dx d) (p.2 + dy d) ∧
        stC8.grid (p.1 + dx d) (p.2 + dy d) = ROAD :=
  C8_growth_scenario rngW rngW_valid
